import Mathlib

/-!  Verification of the casio-calculator expression pipeline
     (tokenizer, shunting-yard parser, RPN evaluator) and of the
     numerical subsystem (root finding in `complex.js`, adaptive
     Simpson integration in `integration.js`).

     JavaScript numbers are modelled by `JNum`: finite doubles are
     idealized as exact rationals, and the special values `Infinity`,
     `-Infinity` and `NaN` are explicit constructors.  Native
     transcendental primitives (`Math.sin`, `Math.cbrt`, fractional
     `Math.pow`, ...) are black boxes, collected in a `NativeMath`
     structure that parameterizes the evaluator; no verified claim
     depends on their values.  -/

namespace Casio

/-- A JavaScript number: a finite value (idealized as an exact rational),
`Infinity`, `-Infinity`, or `NaN`. -/
inductive JNum where
  | num (x : ℚ)
  | inf
  | ninf
  | nan
deriving DecidableEq, Repr

namespace JNum

/-- JS `isFinite`. -/
def isFinite : JNum → Bool
  | num _ => true
  | _ => false

/-- JS `Number.isInteger`. -/
def isInteger : JNum → Bool
  | num x => x.den == 1
  | _ => false

/-- JS strict equality `===` on numbers: `NaN` equals nothing (itself included). -/
def jeq : JNum → JNum → Bool
  | num x, num y => x == y
  | inf, inf => true
  | ninf, ninf => true
  | _, _ => false

/-- JS `<`: any comparison involving `NaN` is false. -/
def jlt : JNum → JNum → Bool
  | nan, _ => false
  | _, nan => false
  | num x, num y => decide (x < y)
  | num _, inf => true
  | num _, ninf => false
  | inf, _ => false
  | ninf, ninf => false
  | ninf, _ => true

/-- JS `<=`: equivalent to `x < y || x == y` on numbers (false whenever `NaN` is involved). -/
def jle (x y : JNum) : Bool := jlt x y || jeq x y

/-- JS unary minus. -/
def jneg : JNum → JNum
  | num x => num (-x)
  | inf => ninf
  | ninf => inf
  | nan => nan

/-- JS `Math.abs`. -/
def jabs : JNum → JNum
  | num x => num |x|
  | inf => inf
  | ninf => inf
  | nan => nan

/-- JS `+` (IEEE-754 addition, finite arithmetic idealized as exact). -/
def jadd : JNum → JNum → JNum
  | nan, _ => nan
  | _, nan => nan
  | num x, num y => num (x + y)
  | num _, inf => inf
  | inf, num _ => inf
  | num _, ninf => ninf
  | ninf, num _ => ninf
  | inf, inf => inf
  | ninf, ninf => ninf
  | inf, ninf => nan
  | ninf, inf => nan

/-- JS binary `-` (IEEE subtraction is addition of the negation). -/
def jsub (x y : JNum) : JNum := jadd x (jneg y)

/-- JS `*` (IEEE-754 multiplication; `Infinity * 0` is `NaN`). -/
def jmul : JNum → JNum → JNum
  | nan, _ => nan
  | _, nan => nan
  | num x, num y => num (x * y)
  | num x, inf => if 0 < x then inf else if x < 0 then ninf else nan
  | inf, num x => if 0 < x then inf else if x < 0 then ninf else nan
  | num x, ninf => if 0 < x then ninf else if x < 0 then inf else nan
  | ninf, num x => if 0 < x then ninf else if x < 0 then inf else nan
  | inf, inf => inf
  | ninf, ninf => inf
  | inf, ninf => ninf
  | ninf, inf => ninf

/-- JS `/` (IEEE-754 division; the sign of zero is not modelled, a zero
divisor counts as `+0`). -/
def jdiv : JNum → JNum → JNum
  | nan, _ => nan
  | _, nan => nan
  | num x, num y =>
      if y = 0 then (if x = 0 then nan else if 0 < x then inf else ninf)
      else num (x / y)
  | num _, inf => num 0
  | num _, ninf => num 0
  | inf, num y => if 0 ≤ y then inf else ninf
  | ninf, num y => if 0 ≤ y then ninf else inf
  | inf, inf => nan
  | inf, ninf => nan
  | ninf, inf => nan
  | ninf, ninf => nan

/-- Truncation toward zero of a rational, as used by the JS `%` remainder. -/
def truncQ (x : ℚ) : ℤ := if x < 0 then ⌈x⌉ else ⌊x⌋

/-- JS `%` (remainder with the sign of the dividend:
`x % y = x - y * trunc(x / y)`). -/
def jmod : JNum → JNum → JNum
  | nan, _ => nan
  | _, nan => nan
  | inf, _ => nan
  | ninf, _ => nan
  | num x, num y => if y = 0 then nan else num (x - y * truncQ (x / y))
  | num x, inf => num x
  | num x, ninf => num x

/-- Is the rational an odd integer (ECMA `Number::exponentiate` cares). -/
def isOddInt (e : ℚ) : Bool := e.den == 1 && e.num % 2 ≠ 0

/-- JS `Math.pow` (ECMA-262 `Number::exponentiate`).  Powers with an
integral exponent are computed exactly; a fractional power of a
non-negative finite base is delegated to the black-box `pf`; a fractional
power of a negative base is `NaN`. -/
def jpow (pf : ℚ → ℚ → JNum) (x y : JNum) : JNum :=
  match y with
  | nan => nan
  | num e =>
      if e = 0 then num 1
      else
        match x with
        | nan => nan
        | inf => if 0 < e then inf else num 0
        | ninf =>
            if 0 < e then (if isOddInt e then ninf else inf)
            else num 0
        | num b =>
            if b = 0 then (if 0 < e then num 0 else inf)
            else if e.den = 1 then num (b ^ e.num)
            else if b < 0 then nan
            else pf b e
  | inf =>
      match x with
      | nan => nan
      | inf => inf
      | ninf => inf
      | num b => if 1 < |b| then inf else if |b| = 1 then nan else num 0
  | ninf =>
      match x with
      | nan => nan
      | inf => num 0
      | ninf => num 0
      | num b => if 1 < |b| then num 0 else if |b| = 1 then nan else inf

end JNum

/-- The black-box native math primitives consumed by the evaluator
(`Math.sin`, `Math.log10`, ..., and `Math.pow` on a non-negative finite
base with a finite non-integral exponent).  No claim depends on their
values, so the whole development is parameterized over them. -/
structure NativeMath where
  sin : JNum → JNum
  cos : JNum → JNum
  tan : JNum → JNum
  asin : JNum → JNum
  acos : JNum → JNum
  atan : JNum → JNum
  sinh : JNum → JNum
  cosh : JNum → JNum
  tanh : JNum → JNum
  log10 : JNum → JNum
  ln : JNum → JNum
  sqrt : JNum → JNum
  cbrt : JNum → JNum
  powFrac : ℚ → ℚ → JNum

/-- An arbitrary instantiation of the native primitives, used to produce
closed witnesses (every verified statement holds for all instantiations). -/
def NativeMath.arb : NativeMath where
  sin := fun _ => JNum.nan
  cos := fun _ => JNum.nan
  tan := fun _ => JNum.nan
  asin := fun _ => JNum.nan
  acos := fun _ => JNum.nan
  atan := fun _ => JNum.nan
  sinh := fun _ => JNum.nan
  cosh := fun _ => JNum.nan
  tanh := fun _ => JNum.nan
  log10 := fun _ => JNum.nan
  ln := fun _ => JNum.nan
  sqrt := fun _ => JNum.nan
  cbrt := fun _ => JNum.nan
  powFrac := fun _ _ => JNum.nan

end Casio

namespace Casio

/-- The IEEE-754 double value of `Math.PI`, as an exact rational. -/
def piD : ℚ := 884279719003555 / 281474976710656

/-- The IEEE-754 double value of `Math.E`, as an exact rational. -/
def eD : ℚ := 6121026514868073 / 2251799813685248

/-- A token of the expression parser (`parser.js`): the tagged union
`{type, value}` with `TokenType` one of NUMBER, OPERATOR, FUNCTION,
LPAREN, RPAREN, COMMA, CONSTANT, VARIABLE. -/
inductive Token where
  | number (v : JNum)
  | op (s : String)
  | func (s : String)
  | lparen
  | rparen
  | comma
  | const (s : String)
  | var (s : String)
deriving DecidableEq, Repr

namespace Token

def isOp : Token → Bool
  | op _ => true
  | _ => false

def isLParen : Token → Bool
  | lparen => true
  | _ => false

def isRParen : Token → Bool
  | rparen => true
  | _ => false

def isFunc : Token → Bool
  | func _ => true
  | _ => false

/-- The `TokenType` string of a token (used in evaluator error messages). -/
def typeName : Token → String
  | number _ => "NUMBER"
  | op _ => "OPERATOR"
  | func _ => "FUNCTION"
  | lparen => "LPAREN"
  | rparen => "RPAREN"
  | comma => "COMMA"
  | const _ => "CONSTANT"
  | var _ => "VARIABLE"

end Token

/-- Operator associativity (`'left'` / `'right'` in `OPERATORS`). -/
inductive Assoc where
  | left
  | right
deriving DecidableEq, Repr

/-- One entry of the `OPERATORS` table: `{precedence, associativity, args}`. -/
structure OpInfo where
  precedence : ℕ
  assoc : Assoc
  args : ℕ
deriving DecidableEq, Repr

/-- The `OPERATORS` table of `parser.js`, in source order. -/
def OPERATORS : List (String × OpInfo) :=
  [("+", ⟨1, Assoc.left, 2⟩),
   ("−", ⟨1, Assoc.left, 2⟩),
   ("-", ⟨1, Assoc.left, 2⟩),
   ("×", ⟨2, Assoc.left, 2⟩),
   ("*", ⟨2, Assoc.left, 2⟩),
   ("÷", ⟨2, Assoc.left, 2⟩),
   ("/", ⟨2, Assoc.left, 2⟩),
   ("^", ⟨3, Assoc.right, 2⟩),
   ("xʸ", ⟨3, Assoc.right, 2⟩),
   ("%", ⟨2, Assoc.left, 2⟩)]

/-- `OPERATORS[s]` (`none` plays the role of JS `undefined`). -/
def lookupOp (s : String) : Option OpInfo :=
  (OPERATORS.find? (fun p => p.1 == s)).map (fun p => p.2)

/-- The `FUNCTIONS` table of `parser.js`, in source (insertion) order.
Only the `args` arity field is consulted by the parser and evaluator, so
the unused `type`/`inverse` metadata is not modelled. -/
def FUNCTIONS : List (String × ℕ) :=
  [("sin", 1), ("cos", 1), ("tan", 1),
   ("sin⁻¹", 1), ("cos⁻¹", 1), ("tan⁻¹", 1),
   ("asin", 1), ("acos", 1), ("atan", 1),
   ("sinh", 1), ("cosh", 1), ("tanh", 1),
   ("log", 1), ("ln", 1),
   ("√", 1), ("sqrt", 1), ("∛", 1), ("∜", 1),
   ("abs", 1), ("Abs", 1)]

/-- `FUNCTIONS[s]` (the arity). -/
def lookupFn (s : String) : Option ℕ :=
  (FUNCTIONS.find? (fun p => p.1 == s)).map (fun p => p.2)

/-- The `CONSTANTS` table of `parser.js`, in source order, with the exact
double values of `Math.PI` / `Math.E`. -/
def CONSTANTS : List (String × ℚ) :=
  [("π", piD), ("pi", piD), ("e", eD), ("E", eD)]

/-- `CONSTANTS[s]`. -/
def lookupConst (s : String) : Option ℚ :=
  (CONSTANTS.find? (fun p => p.1 == s)).map (fun p => p.2)

/-- Is the character an ASCII digit (`char >= '0' && char <= '9'`). -/
def isDigitChar (c : Char) : Bool := '0' ≤ c && c ≤ '9'

/-- A character the number branch of `tokenize` consumes: digit or `'.'`. -/
def isNumChar (c : Char) : Bool := isDigitChar c || c == '.'

/-- `char >= 'A' && char <= 'Z' || char >= 'a' && char <= 'z'`. -/
def isLetterChar (c : Char) : Bool :=
  ('A' ≤ c && c ≤ 'Z') || ('a' ≤ c && c ≤ 'z')

/-- The digit string consumed by the number branch, as a natural number. -/
def digitsToNat (ds : List Char) : ℕ :=
  ds.foldl (fun a c => 10 * a + (c.toNat - '0'.toNat)) 0

/-- JS `parseFloat` restricted to the strings the tokenizer feeds it
(strings of digits and dots): an integer part, optionally a dot and a
fraction part, parsing stops at a second dot; no digits at all gives
`NaN`.  The double rounding of the decimal literal is idealized away. -/
def jsParseFloat (cs : List Char) : JNum :=
  let ip := cs.takeWhile isDigitChar
  let r1 := cs.dropWhile isDigitChar
  match r1 with
  | '.' :: r2 =>
      let fp := r2.takeWhile isDigitChar
      if ip.isEmpty && fp.isEmpty then JNum.nan
      else JNum.num ((digitsToNat ip : ℚ) + (digitsToNat fp : ℚ) / (10 ^ fp.length))
  | _ => if ip.isEmpty then JNum.nan else JNum.num (digitsToNat ip)

/-- First name of `names` (in table order) occurring as a prefix of the
remaining input — the `for (name in TABLE) if (expression.substr(i,
name.length) === name)` scan with its first-match `break`. -/
def findName (names : List String) (cs : List Char) : Option String :=
  names.find? (fun nm => nm.data.isPrefixOf cs)

/-- The names of the `FUNCTIONS` table, in source order. -/
def funcNames : List String := FUNCTIONS.map (fun p => p.1)

/-- The names of the `CONSTANTS` table, in source order. -/
def constNames : List String := CONSTANTS.map (fun p => p.1)

/-- The unary-minus context test of `tokenize`: no token has been emitted
yet, or the previous token is an operator or a left parenthesis.  (The
source condition `i === 0 || tokens.length === 0 || ...` is equivalent
because `i === 0` forces `tokens.length === 0`.)  `acc` holds the emitted
tokens in reverse order, so the previous token is its head. -/
def unaryCtx (acc : List Token) : Bool :=
  match acc with
  | [] => true
  | t :: _ => t.isOp || t.isLParen

/-- The scanning loop of `tokenize` (`parser.js`): one step per consumed
chunk of characters.  `acc` accumulates the emitted tokens in reverse
order.  Branch order is the source's: numeric literal, function table,
constant table, operator (with the unary-minus promotion), parentheses,
comma, single-letter variable, and silently skipped unknown character.
A matched table name `nm` is nonempty, so advancing the cursor by
`nm.length` is realized as dropping `nm.length - 1` characters of the
tail. -/
def tokenizeLoop (cs : List Char) (acc : List Token) : List Token :=
  match cs with
  | [] => acc.reverse
  | c :: rest =>
    if isNumChar c then
      tokenizeLoop (rest.dropWhile isNumChar)
        (Token.number (jsParseFloat (c :: rest.takeWhile isNumChar)) :: acc)
    else
      match findName funcNames (c :: rest) with
      | some nm => tokenizeLoop (rest.drop (nm.length - 1)) (Token.func nm :: acc)
      | none =>
        match findName constNames (c :: rest) with
        | some nm => tokenizeLoop (rest.drop (nm.length - 1)) (Token.const nm :: acc)
        | none =>
          if (lookupOp (String.mk [c])).isSome then
            if (c == '-' || c == '\u2212') && unaryCtx acc then
              tokenizeLoop rest (Token.op "\u00d7" :: Token.number (JNum.num (-1)) :: acc)
            else
              tokenizeLoop rest (Token.op (String.mk [c]) :: acc)
          else if c == '(' then tokenizeLoop rest (Token.lparen :: acc)
          else if c == ')' then tokenizeLoop rest (Token.rparen :: acc)
          else if c == ',' then tokenizeLoop rest (Token.comma :: acc)
          else if isLetterChar c then tokenizeLoop rest (Token.var (String.mk [c]) :: acc)
          else tokenizeLoop rest acc
termination_by cs.length
decreasing_by
  all_goals simp only [List.length_cons, List.length_drop]
  · exact Nat.lt_succ_of_le ((List.dropWhile_sublist _).length_le)
  · omega
  · omega
  all_goals exact Nat.lt_succ_self _

/-- `tokenize` (`parser.js`): strip whitespace, scan left to right. -/
def tokenize (s : String) : List Token :=
  tokenizeLoop (s.data.filter (fun c => !c.isWhitespace)) []

/-- Should `op1` (being read) pop `op2` (stack top) — the while-condition
of the OPERATOR case of `parseToRPN`. -/
def shouldPop (o1 o2 : OpInfo) : Bool :=
  (o1.assoc == Assoc.left && o1.precedence ≤ o2.precedence) ||
  (o1.assoc == Assoc.right && decide (o1.precedence < o2.precedence))

/-- The pop-while loop of the OPERATOR case of `parseToRPN`: returns the
popped operators (in pop order) and the remaining stack.  `o1?` is
`OPERATORS[token.value]` for the operator being read; JS only reads it —
and the table entry of the stack top — inside the loop body, so an
`undefined` entry surfaces as a `TypeError` only when the loop body runs
(stack top is an OPERATOR token). -/
def popWhileOps (o1? : Option OpInfo) : List Token → Except String (List Token × List Token)
  | [] => Except.ok ([], [])
  | Token.op s :: rest =>
      match o1? with
      | none => Except.error "TypeError: undefined operator entry"
      | some o1 =>
          match lookupOp s with
          | none => Except.error "TypeError: undefined operator entry"
          | some o2 =>
              if shouldPop o1 o2 then
                (popWhileOps o1? rest).map (fun pr => (Token.op s :: pr.1, pr.2))
              else Except.ok ([], Token.op s :: rest)
  | t :: rest => Except.ok ([], t :: rest)

/-- Pop until a left parenthesis is on top (used by the COMMA and RPAREN
cases of `parseToRPN`): returns the popped tokens and the rest of the
stack, which is either empty or starts with the left parenthesis. -/
def popUntilLParen : List Token → (List Token × List Token)
  | [] => ([], [])
  | t :: rest =>
      if t.isLParen then ([], t :: rest)
      else
        let pr := popUntilLParen rest
        (t :: pr.1, pr.2)

/-- One step of the shunting-yard scan of `parseToRPN` (`parser.js`):
state is `(output, operatorStack)`, the stack with its top first. -/
def syStep (st : List Token × List Token) (t : Token) :
    Except String (List Token × List Token) :=
  match t with
  | Token.number _ => Except.ok (st.1 ++ [t], st.2)
  | Token.const _ => Except.ok (st.1 ++ [t], st.2)
  | Token.var _ => Except.ok (st.1 ++ [t], st.2)
  | Token.func _ => Except.ok (st.1, t :: st.2)
  | Token.comma =>
      let pr := popUntilLParen st.2
      Except.ok (st.1 ++ pr.1, pr.2)
  | Token.op s =>
      (popWhileOps (lookupOp s) st.2).map
        (fun pr => (st.1 ++ pr.1, Token.op s :: pr.2))
  | Token.lparen => Except.ok (st.1, t :: st.2)
  | Token.rparen =>
      let pr := popUntilLParen st.2
      match pr.2 with
      | [] => Except.error "Mismatched parentheses"
      | _ :: rest' =>
          match rest' with
          | Token.func f :: rest2 =>
              Except.ok (st.1 ++ pr.1 ++ [Token.func f], rest2)
          | _ => Except.ok (st.1 ++ pr.1, rest')

/-- The scan loop of `parseToRPN` over the token sequence. -/
def syRun (ts : List Token) (st : List Token × List Token) :
    Except String (List Token × List Token) :=
  match ts with
  | [] => Except.ok st
  | t :: rest =>
      match syStep st t with
      | Except.ok st' => syRun rest st'
      | Except.error e => Except.error e

/-- The final phase of `parseToRPN`: pop all remaining operators to the
output; a leftover parenthesis (of either kind) is an error. -/
def popAll : List Token → Except String (List Token)
  | [] => Except.ok []
  | t :: rest =>
      if t.isLParen || t.isRParen then Except.error "Mismatched parentheses"
      else (popAll rest).map (fun l => t :: l)

/-- `parseToRPN` (`parser.js`): shunting-yard conversion of an infix
token sequence to RPN. -/
def parseToRPN (tokens : List Token) : Except String (List Token) :=
  match syRun tokens ([], []) with
  | Except.error e => Except.error e
  | Except.ok st =>
      match popAll st.2 with
      | Except.error e => Except.error e
      | Except.ok rem => Except.ok (st.1 ++ rem)

/-- `parse` (`parser.js`): tokenize then convert to RPN. -/
def parse (expression : String) : Except String (List Token) :=
  parseToRPN (tokenize expression)

/-- Angle units (`DEG`/`RAD`/`GRAD`). -/
inductive AngleUnit where
  | DEG
  | RAD
  | GRAD
deriving DecidableEq, Repr

/-- The calculator state as the math engine sees it: the angle unit and
the variable-binding memory (`window.calculatorState.angleUnit/.memory`).
The same shape serves as the evaluation context `{angleUnit, memory}`
passed to `evaluate`; the JS default chain (`context.angleUnit ||
window.calculatorState?.angleUnit || 'DEG'`) is modelled by the context
always carrying resolved values. -/
structure CalcState where
  angleUnit : AngleUnit
  memory : String → Option JNum

/-- `applyAngleUnit` (`evaluator.js`): convert a trig argument from the
current unit to radians (`x * (Math.PI / 180)` resp. `x * (Math.PI / 200)`). -/
def applyAngleUnit (value : JNum) : AngleUnit → JNum
  | AngleUnit.DEG => JNum.jmul value (JNum.num (piD / 180))
  | AngleUnit.RAD => value
  | AngleUnit.GRAD => JNum.jmul value (JNum.num (piD / 200))

/-- `applyInverseAngleUnit` (`evaluator.js`): convert a radian result back
to the current unit. -/
def applyInverseAngleUnit (value : JNum) : AngleUnit → JNum
  | AngleUnit.DEG => JNum.jmul value (JNum.num (180 / piD))
  | AngleUnit.RAD => value
  | AngleUnit.GRAD => JNum.jmul value (JNum.num (200 / piD))

/-- The iterative product `for (let i = 2; i <= n; i++) result *= i` of
`factorial` (`mathEngine/utils.js`). -/
def factLoop (n : ℕ) : ℚ :=
  List.foldl (fun (r : ℚ) (i : ℕ) => r * (i : ℚ)) 1 (List.range' 2 (n - 1))

/-- `MathUtils.factorial` (`mathEngine/utils.js`): requires a non-negative
integer; `0! = 1! = 1`; `n > 170` saturates to `Infinity`; otherwise the
iterative product. -/
def jsFactorial (x : JNum) : Except String JNum :=
  match x with
  | JNum.num q =>
      if q.den ≠ 1 || q < 0 then
        Except.error "Factorial requires non-negative integer"
      else
        let n : ℕ := q.num.toNat
        if n = 0 || n = 1 then Except.ok (JNum.num 1)
        else if 170 < n then Except.ok JNum.inf
        else Except.ok (JNum.num (factLoop n))
  | _ => Except.error "Factorial requires non-negative integer"

/-- The loop of `permutation`: `for (let i = n; i > n - r; i--) result *= i`. -/
def permLoop (n r : ℕ) : ℚ :=
  List.foldl (fun (acc : ℚ) (i : ℕ) => acc * (i : ℚ)) 1 (List.range' (n - r + 1) r)

/-- `MathUtils.permutation` (`mathEngine/utils.js`). -/
def jsPermutation (x y : JNum) : Except String JNum :=
  match x, y with
  | JNum.num a, JNum.num b =>
      if a.den ≠ 1 || b.den ≠ 1 then
        Except.error "Permutation requires integers"
      else if a < 0 || b < 0 then
        Except.error "Permutation requires non-negative values"
      else
        let n : ℕ := a.num.toNat
        let r : ℕ := b.num.toNat
        if n < r then Except.ok (JNum.num 0)
        else if r = 0 then Except.ok (JNum.num 1)
        else Except.ok (JNum.num (permLoop n r))
  | _, _ => Except.error "Permutation requires integers"

/-- The loop of `combination`:
`for (let i = 0; i < r; i++) { result *= (n - i); result /= (i + 1) }`. -/
def combLoop (n r : ℕ) : ℚ :=
  List.foldl (fun (acc : ℚ) (i : ℕ) => acc * ((n : ℚ) - (i : ℚ)) / ((i : ℚ) + 1)) 1
    (List.range r)

/-- `MathUtils.combination` (`mathEngine/utils.js`); the final
`Math.round` is `⌊x + 1/2⌋`, which is Mathlib's `round`. -/
def jsCombination (x y : JNum) : Except String JNum :=
  match x, y with
  | JNum.num a, JNum.num b =>
      if a.den ≠ 1 || b.den ≠ 1 then
        Except.error "Combination requires integers"
      else if a < 0 || b < 0 then
        Except.error "Combination requires non-negative values"
      else
        let n : ℕ := a.num.toNat
        let r : ℕ := b.num.toNat
        if n < r then Except.ok (JNum.num 0)
        else if r = 0 || r = n then Except.ok (JNum.num 1)
        else
          let r' := if n - r < r then n - r else r
          Except.ok (JNum.num ((round (combLoop n r') : ℤ) : ℚ))
  | _, _ => Except.error "Combination requires integers"

/-- `evaluateOperation` (`evaluator.js`): dispatch a single operator or
function on its argument list.  Out-of-range argument access (JS
`undefined`) is modelled as `NaN`, which matches how every use here
behaves (`undefined` arithmetic yields `NaN`, comparisons are false). -/
def evaluateOperation (M : NativeMath) (operator : String) (args : List JNum)
    (angleUnit : AngleUnit) : Except String JNum :=
  let a0 := args.getD 0 JNum.nan
  let a1 := args.getD 1 JNum.nan
  match operator with
  | "+" => Except.ok (JNum.jadd a0 a1)
  | "−" => Except.ok (JNum.jsub a0 a1)
  | "-" => Except.ok (JNum.jsub a0 a1)
  | "×" => Except.ok (JNum.jmul a0 a1)
  | "*" => Except.ok (JNum.jmul a0 a1)
  | "÷" =>
      if JNum.jeq a1 (JNum.num 0) then Except.error "Division by zero"
      else Except.ok (JNum.jdiv a0 a1)
  | "/" =>
      if JNum.jeq a1 (JNum.num 0) then Except.error "Division by zero"
      else Except.ok (JNum.jdiv a0 a1)
  | "^" => Except.ok (JNum.jpow M.powFrac a0 a1)
  | "xʸ" => Except.ok (JNum.jpow M.powFrac a0 a1)
  | "%" => Except.ok (JNum.jmod a0 a1)
  | "sin" => Except.ok (M.sin (applyAngleUnit a0 angleUnit))
  | "cos" => Except.ok (M.cos (applyAngleUnit a0 angleUnit))
  | "tan" => Except.ok (M.tan (applyAngleUnit a0 angleUnit))
  | "sin⁻¹" => Except.ok (applyInverseAngleUnit (M.asin a0) angleUnit)
  | "asin" => Except.ok (applyInverseAngleUnit (M.asin a0) angleUnit)
  | "cos⁻¹" => Except.ok (applyInverseAngleUnit (M.acos a0) angleUnit)
  | "acos" => Except.ok (applyInverseAngleUnit (M.acos a0) angleUnit)
  | "tan⁻¹" => Except.ok (applyInverseAngleUnit (M.atan a0) angleUnit)
  | "atan" => Except.ok (applyInverseAngleUnit (M.atan a0) angleUnit)
  | "sinh" => Except.ok (M.sinh a0)
  | "cosh" => Except.ok (M.cosh a0)
  | "tanh" => Except.ok (M.tanh a0)
  | "log" =>
      if JNum.jle a0 (JNum.num 0) then Except.error "Invalid domain for log"
      else Except.ok (M.log10 a0)
  | "ln" =>
      if JNum.jle a0 (JNum.num 0) then Except.error "Invalid domain for ln"
      else Except.ok (M.ln a0)
  | "√" =>
      if JNum.jlt a0 (JNum.num 0) then Except.error "Invalid domain for sqrt"
      else Except.ok (M.sqrt a0)
  | "sqrt" =>
      if JNum.jlt a0 (JNum.num 0) then Except.error "Invalid domain for sqrt"
      else Except.ok (M.sqrt a0)
  | "∛" => Except.ok (M.cbrt a0)
  | "∜" => Except.ok (JNum.jpow M.powFrac a0 (JNum.num (1 / 4)))
  | "abs" => Except.ok (JNum.jabs a0)
  | "Abs" => Except.ok (JNum.jabs a0)
  | "!" =>
      if !a0.isInteger || JNum.jlt a0 (JNum.num 0) then
        Except.error "Factorial requires non-negative integer"
      else jsFactorial a0
  | "nPr" => jsPermutation a0 a1
  | "nCr" => jsCombination a0 a1
  | other => Except.error ("Unknown operator: " ++ other)

/-- One step of the RPN evaluation loop of `evaluate` (`evaluator.js`);
the value stack has its top first. -/
def evalStep (M : NativeMath) (ctx : CalcState) (stack : List JNum) (t : Token) :
    Except String (List JNum) :=
  match t with
  | Token.number v => Except.ok (v :: stack)
  | Token.const s =>
      match lookupConst s with
      | some v => Except.ok (JNum.num v :: stack)
      | none => Except.error ("Unknown constant: " ++ s)
  | Token.var s =>
      match ctx.memory s with
      | some v => Except.ok (v :: stack)
      | none => Except.error ("Undefined variable: " ++ s)
  | Token.op s =>
      match stack with
      | b :: a :: rest =>
          (evaluateOperation M s [a, b] ctx.angleUnit).map (fun r => r :: rest)
      | _ => Except.error "Insufficient operands for operator"
  | Token.func f =>
      match lookupFn f with
      | none => Except.error ("Unknown function: " ++ f)
      | some arity =>
          if stack.length < arity then
            Except.error ("Insufficient arguments for function " ++ f)
          else
            (evaluateOperation M f (stack.take arity).reverse ctx.angleUnit).map
              (fun r => r :: stack.drop arity)
  | t' => Except.error ("Unknown token type: " ++ t'.typeName)

/-- The evaluation loop over the RPN sequence. -/
def evalRun (M : NativeMath) (ctx : CalcState) (ts : List Token) (stack : List JNum) :
    Except String (List JNum) :=
  match ts with
  | [] => Except.ok stack
  | t :: rest =>
      match evalStep M ctx stack t with
      | Except.ok stack' => evalRun M ctx rest stack'
      | Except.error e => Except.error e

/-- `evaluate` (`evaluator.js`): run the RPN program on an empty stack;
exactly one value must remain. -/
def evaluate (M : NativeMath) (rpnTokens : List Token) (ctx : CalcState) :
    Except String JNum :=
  match evalRun M ctx rpnTokens [] with
  | Except.error e => Except.error e
  | Except.ok [v] => Except.ok v
  | Except.ok s =>
      Except.error ("Invalid expression: stack has " ++ toString s.length ++ " items")

/-- `evaluateExpression` (`evaluator.js`): parse to RPN, then evaluate. -/
def evaluateExpression (M : NativeMath) (expression : String) (ctx : CalcState) :
    Except String JNum :=
  match parse expression with
  | Except.error e => Except.error e
  | Except.ok rpn => evaluate M rpn ctx

/-- `evaluateWithState` (`evaluator.js`): evaluate against the calculator
state's angle unit and memory. -/
def evaluateWithState (M : NativeMath) (expression : String) (state : CalcState) :
    Except String JNum :=
  evaluateExpression M expression ⟨state.angleUnit, state.memory⟩

/-- Overwrite one binding of the memory object (`state.memory[key] = value`). -/
def updateMem (m : String → Option JNum) (k : String) (v : Option JNum) :
    String → Option JNum :=
  fun k' => if k' = k then v else m k'

/-- A state-threaded numeric function, the shape of the `f(x)` closures
the root finders and the integrator drive: JS closures read and write the
global `window.calculatorState`, modelled by explicit state passing. -/
def FnS : Type :=
  JNum → CalcState → Except String JNum × CalcState

/-- The `f` closure built by `solve` (`mathEngine/complex.js`): snapshot
the memory, write the trial value into the (uppercased) variable, run the
evaluator, and restore the snapshot on both the success and the failure
path. -/
def solveF (M : NativeMath) (expression varName : String) : FnS :=
  fun value st =>
    let originalMemory := st.memory
    let st1 : CalcState := { st with memory := updateMem st.memory varName.toUpper (some value) }
    match evaluateWithState M expression st1 with
    | Except.ok result => (Except.ok result, { st1 with memory := originalMemory })
    | Except.error e => (Except.error e, { st1 with memory := originalMemory })

/-- `createFunctionFromExpression` (`mathEngine/integration.js`): the
integrator's variable-binding closure, same transactional discipline. -/
def createFunctionFromExpression (M : NativeMath) (expression varName : String) : FnS :=
  fun value st =>
    let originalMemory := st.memory
    let st1 : CalcState := { st with memory := updateMem st.memory varName.toUpper (some value) }
    match evaluateWithState M expression st1 with
    | Except.ok result => (Except.ok result, { st1 with memory := originalMemory })
    | Except.error e => (Except.error e, { st1 with memory := originalMemory })

/-- The `while (iterations < maxIterations)` loop of `bisection`
(`mathEngine/complex.js`); the remaining iteration budget is the fuel. -/
def bisectionLoop (f : FnS) (tol : JNum) :
    ℕ → JNum → JNum → JNum → JNum → CalcState → Except String JNum × CalcState
  | 0, a, b, _, _, st => (Except.ok (JNum.jdiv (JNum.jadd a b) (JNum.num 2)), st)
  | fuel + 1, a, b, fa, fb, st =>
      let c := JNum.jdiv (JNum.jadd a b) (JNum.num 2)
      match f c st with
      | (Except.error e, st1) => (Except.error e, st1)
      | (Except.ok fc, st1) =>
          if JNum.jlt (JNum.jabs fc) tol || JNum.jlt (JNum.jabs (JNum.jsub b a)) tol then
            (Except.ok c, st1)
          else if JNum.jlt (JNum.jmul fa fc) (JNum.num 0) then
            bisectionLoop f tol fuel a c fa fc st1
          else
            bisectionLoop f tol fuel c b fc fb st1

/-- `bisection` (`mathEngine/complex.js`). -/
def bisection (f : FnS) (a b tol : JNum) (maxIterations : ℕ) (st : CalcState) :
    Except String JNum × CalcState :=
  match f a st with
  | (Except.error e, st1) => (Except.error e, st1)
  | (Except.ok fa, st1) =>
      match f b st1 with
      | (Except.error e, st2) => (Except.error e, st2)
      | (Except.ok fb, st2) =>
          if JNum.jlt (JNum.num 0) (JNum.jmul fa fb) then
            (Except.error "Function must have different signs at bounds", st2)
          else if JNum.jlt (JNum.jabs fa) tol then (Except.ok a, st2)
          else if JNum.jlt (JNum.jabs fb) tol then (Except.ok b, st2)
          else bisectionLoop f tol maxIterations a b fa fb st2

/-- The central-difference numerical derivative of `newton`:
`(f(x + h) - f(x - h)) / (2 * h)`. -/
def newtonDf (f : FnS) (h : JNum) : FnS :=
  fun x st =>
    match f (JNum.jadd x h) st with
    | (Except.error e, st1) => (Except.error e, st1)
    | (Except.ok v1, st1) =>
        match f (JNum.jsub x h) st1 with
        | (Except.error e, st2) => (Except.error e, st2)
        | (Except.ok v2, st2) =>
            (Except.ok (JNum.jdiv (JNum.jsub v1 v2) (JNum.jmul (JNum.num 2) h)), st2)

/-- The iteration loop of `newton` (`mathEngine/complex.js`). -/
def newtonLoop (f df : FnS) (tol : JNum) :
    ℕ → JNum → CalcState → Except String JNum × CalcState
  | 0, _, st => (Except.error "Newton method did not converge", st)
  | fuel + 1, x, st =>
      match f x st with
      | (Except.error e, st1) => (Except.error e, st1)
      | (Except.ok fx, st1) =>
          if JNum.jlt (JNum.jabs fx) tol then (Except.ok x, st1)
          else
            match df x st1 with
            | (Except.error e, st2) => (Except.error e, st2)
            | (Except.ok dfx, st2) =>
                if JNum.jlt (JNum.jabs dfx) (JNum.num (1 / 10 ^ 12)) then
                  (Except.error "Derivative too small, Newton method failed", st2)
                else
                  let xNew := JNum.jsub x (JNum.jdiv fx dfx)
                  if JNum.jlt (JNum.jabs (JNum.jsub xNew x)) tol then (Except.ok xNew, st2)
                  else newtonLoop f df tol fuel xNew st2

/-- `newton` (`mathEngine/complex.js`); `derivative` is the optional
user-supplied derivative (`solve` never passes one), `h` the step of the
numerical derivative (default `1e-7`). -/
def newton (f : FnS) (x0 : JNum) (tol : JNum) (maxIterations : ℕ)
    (derivative : Option FnS) (h : JNum) (st : CalcState) :
    Except String JNum × CalcState :=
  let df := derivative.getD (newtonDf f h)
  newtonLoop f df tol maxIterations x0 st

/-- The iteration loop of `secant` (`mathEngine/complex.js`). -/
def secantLoop (f : FnS) (tol : JNum) :
    ℕ → JNum → JNum → CalcState → Except String JNum × CalcState
  | 0, _, _, st => (Except.error "Secant method did not converge", st)
  | fuel + 1, x0, x1, st =>
      match f x0 st with
      | (Except.error e, st1) => (Except.error e, st1)
      | (Except.ok fx0, st1) =>
          match f x1 st1 with
          | (Except.error e, st2) => (Except.error e, st2)
          | (Except.ok fx1, st2) =>
              if JNum.jlt (JNum.jabs fx1) tol then (Except.ok x1, st2)
              else if JNum.jlt (JNum.jabs (JNum.jsub fx1 fx0)) (JNum.num (1 / 10 ^ 12)) then
                (Except.error "Division by zero in secant method", st2)
              else
                let x2 := JNum.jsub x1 (JNum.jdiv (JNum.jmul fx1 (JNum.jsub x1 x0)) (JNum.jsub fx1 fx0))
                if JNum.jlt (JNum.jabs (JNum.jsub x2 x1)) tol then (Except.ok x2, st2)
                else secantLoop f tol fuel x1 x2 st2

/-- `secant` (`mathEngine/complex.js`). -/
def secant (f : FnS) (x0 x1 tol : JNum) (maxIterations : ℕ) (st : CalcState) :
    Except String JNum × CalcState :=
  secantLoop f tol maxIterations x0 x1 st

/-- One a/b/c/d/e-state iteration of `brent` (`mathEngine/complex.js`),
fuel = remaining iterations of the `for (iter...)` loop.  The sequential
JS reassignments are modelled by shadowing lets in source order. -/
def brentLoop (f : FnS) (tol : JNum) :
    ℕ → JNum → JNum → JNum → JNum → JNum → JNum → JNum → JNum → CalcState →
    Except String JNum × CalcState
  | 0, _, _, _, _, _, _, _, _, st => (Except.error "Brent method did not converge", st)
  | fuel + 1, a, b, c, d, e, fa, fb, fc, st =>
      if JNum.jlt (JNum.jabs fb) tol then (Except.ok b, st)
      else
        let cfde :=
          if JNum.jlt (JNum.num 0) (JNum.jmul fa fb) then
            (a, fa, JNum.jsub b a, JNum.jsub b a)
          else (c, fc, d, e)
        let c := cfde.1
        let fc := cfde.2.1
        let d := cfde.2.2.1
        let e := cfde.2.2.2
        let rot :=
          if JNum.jlt (JNum.jabs fc) (JNum.jabs fb) then
            (b, c, b, fb, fc, fb)
          else (a, b, c, fa, fb, fc)
        let a := rot.1
        let b := rot.2.1
        let c := rot.2.2.1
        let fa := rot.2.2.2.1
        let fb := rot.2.2.2.2.1
        let fc := rot.2.2.2.2.2
        let tol1 := JNum.jadd (JNum.jmul (JNum.jmul (JNum.num 2) tol) (JNum.jabs b))
          (JNum.jdiv tol (JNum.num 2))
        let xm := JNum.jdiv (JNum.jsub c b) (JNum.num 2)
        if JNum.jle (JNum.jabs xm) tol1 || JNum.jeq fb (JNum.num 0) then (Except.ok b, st)
        else
          let de :=
            if JNum.jle tol1 (JNum.jabs e) && JNum.jlt (JNum.jabs fb) (JNum.jabs fa) then
              let s := JNum.jdiv fb fa
              let pq :=
                if JNum.jeq a c then
                  (JNum.jmul (JNum.jmul (JNum.num 2) xm) s, JNum.jsub (JNum.num 1) s)
                else
                  let q1 := JNum.jdiv fa fc
                  let q2 := JNum.jdiv fb fc
                  (JNum.jmul s (JNum.jsub
                      (JNum.jmul (JNum.jmul (JNum.jmul (JNum.num 2) xm) q1) (JNum.jsub q1 q2))
                      (JNum.jmul (JNum.jsub b a) (JNum.jsub q2 (JNum.num 1)))),
                   JNum.jmul (JNum.jmul (JNum.jsub q1 (JNum.num 1)) (JNum.jsub q2 (JNum.num 1)))
                     (JNum.jsub s (JNum.num 1)))
              let pPos := JNum.jlt (JNum.num 0) pq.1
              let q := if pPos then JNum.jneg pq.2 else pq.2
              let p := if pPos then pq.1 else JNum.jneg pq.1
              let s_val := e
              let e' := d
              if JNum.jlt (JNum.jmul (JNum.num 2) p)
                   (JNum.jsub (JNum.jmul (JNum.jmul (JNum.num 3) xm) q)
                     (JNum.jabs (JNum.jmul tol1 q))) &&
                 JNum.jlt p (JNum.jabs (JNum.jmul (JNum.jmul (JNum.num (1 / 2)) s_val) q)) then
                (JNum.jdiv p q, e')
              else (xm, xm)
            else (xm, xm)
          let d := de.1
          let e := de.2
          let a := b
          let fa := fb
          let b :=
            if JNum.jlt tol1 (JNum.jabs d) then JNum.jadd b d
            else JNum.jadd b (if JNum.jlt (JNum.num 0) xm then tol1 else JNum.jneg tol1)
          match f b st with
          | (Except.error err, st1) => (Except.error err, st1)
          | (Except.ok fb, st1) => brentLoop f tol fuel a b c d e fa fb fc st1

/-- `brent` (`mathEngine/complex.js`): entry checks and initial state,
then the bounded iteration loop. -/
def brent (f : FnS) (a b tol : JNum) (maxIterations : ℕ) (st : CalcState) :
    Except String JNum × CalcState :=
  match f a st with
  | (Except.error e, st1) => (Except.error e, st1)
  | (Except.ok fa, st1) =>
      match f b st1 with
      | (Except.error e, st2) => (Except.error e, st2)
      | (Except.ok fb, st2) =>
          if JNum.jlt (JNum.num 0) (JNum.jmul fa fb) then
            (Except.error "Function must have different signs at bounds", st2)
          else
            let sw :=
              if JNum.jlt (JNum.jabs fa) (JNum.jabs fb) then (b, a, fb, fa)
              else (a, b, fa, fb)
            let a := sw.1
            let b := sw.2.1
            let fa := sw.2.2.1
            let fb := sw.2.2.2
            brentLoop f tol maxIterations a b a (JNum.jsub b a) (JNum.jsub b a) fa fb fa st2

/-- The methods accepted by `solve`'s `options.method`. -/
inductive SolveMethod where
  | bisection
  | newton
  | secant
  | brent
deriving DecidableEq, Repr

/-- `solve`'s options: `{method = 'brent', bounds = null, tolerance = 1e-8,
maxIterations = 100}`; `bounds` is a JS array, kept as a list. -/
structure SolveOpts where
  method : SolveMethod
  bounds : Option (List JNum)
  tolerance : JNum
  maxIterations : ℕ

/-- The `±10, ±20, ..., ±100` bound-expansion loop of `solve`'s default
Brent path; the argument list is the remaining values of `i` (1 to 10).
When a sign change is found, `brent` is run on the expanded bounds;
if the loop exhausts, the Newton fallback runs from the initial guess. -/
def expandLoop (f : FnS) (g tol : JNum) (maxIterations : ℕ) :
    List ℕ → CalcState → Except String JNum × CalcState
  | [], st => newton f g tol maxIterations none (JNum.num (1 / 10 ^ 7)) st
  | i :: is, st =>
      let range := JNum.jmul (JNum.num (i : ℚ)) (JNum.num 10)
      let a := JNum.jsub g range
      let b := JNum.jadd g range
      match f a st with
      | (Except.error e, st1) => (Except.error e, st1)
      | (Except.ok fa, st1) =>
          match f b st1 with
          | (Except.error e, st2) => (Except.error e, st2)
          | (Except.ok fb, st2) =>
              if JNum.jle (JNum.jmul fa fb) (JNum.num 0) then
                brent f a b tol maxIterations st2
              else expandLoop f g tol maxIterations is st2

/-- Wrap any error of the chosen method as `Solver error: ...`
(the `catch` at the end of `solve`). -/
def wrapSolverErr (r : Except String JNum × CalcState) : Except String JNum × CalcState :=
  match r with
  | (Except.error e, st) => (Except.error ("Solver error: " ++ e), st)
  | ok => ok

/-- `solve` (`mathEngine/complex.js`): build the binding closure `f`,
dispatch on the method, wrap errors. -/
def solve (M : NativeMath) (expression varName : String) (initialGuess : JNum)
    (o : SolveOpts) (st : CalcState) : Except String JNum × CalcState :=
  let f := solveF M expression varName
  wrapSolverErr (
    match o.method with
    | SolveMethod.bisection =>
        match o.bounds with
        | some bs =>
            if bs.length ≠ 2 then (Except.error "Bisection requires bounds [a, b]", st)
            else bisection f (bs.getD 0 JNum.nan) (bs.getD 1 JNum.nan)
              o.tolerance o.maxIterations st
        | none => (Except.error "Bisection requires bounds [a, b]", st)
    | SolveMethod.newton =>
        newton f initialGuess o.tolerance o.maxIterations none (JNum.num (1 / 10 ^ 7)) st
    | SolveMethod.secant =>
        let x1 :=
          match o.bounds with
          | some bs => if 2 ≤ bs.length then bs.getD 1 JNum.nan
                       else JNum.jadd initialGuess (JNum.num 1)
          | none => JNum.jadd initialGuess (JNum.num 1)
        secant f initialGuess x1 o.tolerance o.maxIterations st
    | SolveMethod.brent =>
        let ab :=
          match o.bounds with
          | some bs => (bs.getD 0 JNum.nan, bs.getD 1 JNum.nan)
          | none => (JNum.jsub initialGuess (JNum.num 10), JNum.jadd initialGuess (JNum.num 10))
        match f ab.1 st with
        | (Except.error e, st1) => (Except.error e, st1)
        | (Except.ok fa, st1) =>
            match f ab.2 st1 with
            | (Except.error e, st2) => (Except.error e, st2)
            | (Except.ok fb, st2) =>
                if JNum.jlt (JNum.num 0) (JNum.jmul fa fb) then
                  expandLoop f initialGuess o.tolerance o.maxIterations
                    (List.range' 1 10) st2
                else brent f ab.1 ab.2 o.tolerance o.maxIterations st2)

/-- `integrate`'s options: `{tolerance = 1e-8, maxDepth = 20, variable = 'x'}`. -/
structure IntOpts where
  tolerance : JNum
  maxDepth : ℕ
  varName : String

/-- The first argument of `integrate`: an expression string or a function. -/
inductive Integrand where
  | expr (s : String)
  | fn (f : FnS)

/-- `adaptiveSimpson` (`mathEngine/integration.js`): recursive refinement
with Richardson correction; the `depth` counter is the recursion budget
(`depth <= 0` accepts the current estimate). -/
def adaptiveSimpson (f : FnS) :
    JNum → JNum → JNum → JNum → JNum → JNum → JNum → ℕ → CalcState →
    Except String JNum × CalcState :=
  fun a b epsilon S fa fb fc depth st =>
    let c := JNum.jdiv (JNum.jadd a b) (JNum.num 2)
    let h := JNum.jsub b a
    let d := JNum.jdiv (JNum.jadd a c) (JNum.num 2)
    let e := JNum.jdiv (JNum.jadd c b) (JNum.num 2)
    match f d st with
    | (Except.error err, st1) => (Except.error err, st1)
    | (Except.ok fd, st1) =>
        match f e st1 with
        | (Except.error err, st2) => (Except.error err, st2)
        | (Except.ok fe, st2) =>
            if !fd.isFinite || !fe.isFinite then
              (Except.error "Function returned non-finite value", st2)
            else
              let Sleft := JNum.jmul (JNum.jdiv h (JNum.num 12))
                (JNum.jadd (JNum.jadd fa (JNum.jmul (JNum.num 4) fd)) fc)
              let Sright := JNum.jmul (JNum.jdiv h (JNum.num 12))
                (JNum.jadd (JNum.jadd fc (JNum.jmul (JNum.num 4) fe)) fb)
              let S2 := JNum.jadd Sleft Sright
              match depth with
              | 0 =>
                  (Except.ok (JNum.jadd S2 (JNum.jdiv (JNum.jsub S2 S) (JNum.num 15))), st2)
              | dp + 1 =>
                  if JNum.jle (JNum.jabs (JNum.jsub S2 S)) (JNum.jmul (JNum.num 15) epsilon) then
                    (Except.ok (JNum.jadd S2 (JNum.jdiv (JNum.jsub S2 S) (JNum.num 15))), st2)
                  else
                    match adaptiveSimpson f a c (JNum.jdiv epsilon (JNum.num 2)) Sleft fa fc fd dp st2 with
                    | (Except.error err, st3) => (Except.error err, st3)
                    | (Except.ok rl, st3) =>
                        match adaptiveSimpson f c b (JNum.jdiv epsilon (JNum.num 2)) Sright fc fb fe dp st3 with
                        | (Except.error err, st4) => (Except.error err, st4)
                        | (Except.ok rr, st4) => (Except.ok (JNum.jadd rl rr), st4)

/-- Resolve `integrate`'s first argument to a function: a string goes
through `createFunctionFromExpression`. -/
def resolveIntegrand (M : NativeMath) (func : Integrand) (varName : String) : FnS :=
  match func with
  | Integrand.expr s => createFunctionFromExpression M s varName
  | Integrand.fn g => g

/-- The `catch` of `integrate`: wrap as `Integration error: ...`. -/
def wrapIntegrationErr (r : Except String JNum × CalcState) :
    Except String JNum × CalcState :=
  match r with
  | (Except.error e, st) => (Except.error ("Integration error: " ++ e), st)
  | ok => ok

/-- The `try` block of `integrate` (`mathEngine/integration.js`): check
the bounds and midpoint samples are finite, compute the initial Simpson
estimate, run `adaptiveSimpson`; any error is wrapped by the `catch`. -/
def integrateBody (f : FnS) (a b : JNum) (o : IntOpts) (st : CalcState) :
    Except String JNum × CalcState :=
  wrapIntegrationErr (
    match f a st with
    | (Except.error err, st1) => (Except.error err, st1)
    | (Except.ok fa, st1) =>
        match f b st1 with
        | (Except.error err, st2) => (Except.error err, st2)
        | (Except.ok fb, st2) =>
            match f (JNum.jdiv (JNum.jadd a b) (JNum.num 2)) st2 with
            | (Except.error err, st3) => (Except.error err, st3)
            | (Except.ok fc, st3) =>
                if !fa.isFinite || !fb.isFinite || !fc.isFinite then
                  (Except.error "Function has singularity at or near bounds", st3)
                else
                  let h := JNum.jsub b a
                  let S := JNum.jmul (JNum.jdiv h (JNum.num 6))
                    (JNum.jadd (JNum.jadd fa (JNum.jmul (JNum.num 4) fc)) fb)
                  adaptiveSimpson f a b o.tolerance S fa fb fc o.maxDepth st3)

/-- `integrate` (`mathEngine/integration.js`): resolve the integrand,
require finite bounds, return 0 for `a == b`, recurse with swapped bounds
and negate for `a > b`, otherwise run the adaptive Simpson body. -/
def integrate (M : NativeMath) (func : Integrand) (a b : JNum) (o : IntOpts)
    (st : CalcState) : Except String JNum × CalcState :=
  let f := resolveIntegrand M func o.varName
  if !a.isFinite || !b.isFinite then
    (Except.error "Integration bounds must be finite", st)
  else if JNum.jeq a b then (Except.ok (JNum.num 0), st)
  else if hba : JNum.jlt b a then
    let r := integrate M func b a o st
    (r.1.map JNum.jneg, r.2)
  else integrateBody f a b o st
termination_by (if JNum.jlt b a then 1 else 0)
decreasing_by
  simp only [hba, if_true]
  have hab : JNum.jlt a b = false := by
    cases a <;> cases b <;> simp_all [JNum.jlt]
    exact le_of_lt hba
  simp [hab]

/-- The pop condition of the OPERATOR case of `parseToRPN`, as a predicate
on the stack-top token: the top is an operator `op2` and (`op1` is
left-associative and `prec(op1) ≤ prec(op2)`) or (`op1` is
right-associative and `prec(op1) < prec(op2)`). -/
def shouldPopT (o1 : OpInfo) : Token → Bool
  | Token.op s =>
      match lookupOp s with
      | some o2 => shouldPop o1 o2
      | none => false
  | _ => false

/-- Every OPERATOR token in the list carries a symbol present in the
`OPERATORS` table (true of every token stream `tokenize` produces). -/
def opsKnown (ts : List Token) : Bool :=
  ts.all (fun t =>
    match t with
    | Token.op s => (lookupOp s).isSome
    | _ => true)

/-- Number of left parentheses in a token list. -/
def countLP (ts : List Token) : ℕ := ts.countP Token.isLParen

/-- Parenthesis balance scan: `d` is the current nesting depth; false iff
some prefix closes more than it opened, or the total is unbalanced. -/
def parenDepthOk : List Token → ℕ → Bool
  | [], d => d == 0
  | t :: ts, d =>
      if t.isLParen then parenDepthOk ts (d + 1)
      else if t.isRParen then
        match d with
        | 0 => false
        | d' + 1 => parenDepthOk ts d'
      else parenDepthOk ts d

deriving instance DecidableEq for Except

set_option maxRecDepth 100000

/-!  Dispatch equations of `evaluateOperation`, one per operator symbol a
claim touches (stated once so later proofs need not unfold the full
dispatch match). -/

theorem evalOp_add (M : NativeMath) (u : AngleUnit) (a b : JNum) :
    evaluateOperation M "+" [a, b] u = Except.ok (JNum.jadd a b) := rfl

theorem evalOp_subU (M : NativeMath) (u : AngleUnit) (a b : JNum) :
    evaluateOperation M "−" [a, b] u = Except.ok (JNum.jsub a b) := rfl

theorem evalOp_sub (M : NativeMath) (u : AngleUnit) (a b : JNum) :
    evaluateOperation M "-" [a, b] u = Except.ok (JNum.jsub a b) := rfl

theorem evalOp_mulU (M : NativeMath) (u : AngleUnit) (a b : JNum) :
    evaluateOperation M "×" [a, b] u = Except.ok (JNum.jmul a b) := rfl

theorem evalOp_mul (M : NativeMath) (u : AngleUnit) (a b : JNum) :
    evaluateOperation M "*" [a, b] u = Except.ok (JNum.jmul a b) := rfl

theorem evalOp_divU (M : NativeMath) (u : AngleUnit) (a b : JNum) :
    evaluateOperation M "÷" [a, b] u =
      (if JNum.jeq b (JNum.num 0) then Except.error "Division by zero"
       else Except.ok (JNum.jdiv a b)) := rfl

theorem evalOp_div (M : NativeMath) (u : AngleUnit) (a b : JNum) :
    evaluateOperation M "/" [a, b] u =
      (if JNum.jeq b (JNum.num 0) then Except.error "Division by zero"
       else Except.ok (JNum.jdiv a b)) := rfl

theorem evalOp_pow (M : NativeMath) (u : AngleUnit) (a b : JNum) :
    evaluateOperation M "^" [a, b] u = Except.ok (JNum.jpow M.powFrac a b) := rfl

theorem evalOp_log (M : NativeMath) (u : AngleUnit) (a : JNum) (args : List JNum) :
    evaluateOperation M "log" (a :: args) u =
      (if JNum.jle a (JNum.num 0) then Except.error "Invalid domain for log"
       else Except.ok (M.log10 a)) := rfl

theorem evalOp_ln (M : NativeMath) (u : AngleUnit) (a : JNum) (args : List JNum) :
    evaluateOperation M "ln" (a :: args) u =
      (if JNum.jle a (JNum.num 0) then Except.error "Invalid domain for ln"
       else Except.ok (M.ln a)) := rfl

theorem evalOp_sqrt (M : NativeMath) (u : AngleUnit) (a : JNum) (args : List JNum) :
    evaluateOperation M "sqrt" (a :: args) u =
      (if JNum.jlt a (JNum.num 0) then Except.error "Invalid domain for sqrt"
       else Except.ok (M.sqrt a)) := rfl

theorem evalOp_sqrtU (M : NativeMath) (u : AngleUnit) (a : JNum) (args : List JNum) :
    evaluateOperation M "√" (a :: args) u =
      (if JNum.jlt a (JNum.num 0) then Except.error "Invalid domain for sqrt"
       else Except.ok (M.sqrt a)) := rfl

theorem evalOp_cbrt (M : NativeMath) (u : AngleUnit) (a : JNum) (args : List JNum) :
    evaluateOperation M "∛" (a :: args) u = Except.ok (M.cbrt a) := rfl

theorem evalOp_fourth (M : NativeMath) (u : AngleUnit) (a : JNum) (args : List JNum) :
    evaluateOperation M "∜" (a :: args) u =
      Except.ok (JNum.jpow M.powFrac a (JNum.num (1 / 4))) := rfl

theorem evalOp_fact (M : NativeMath) (u : AngleUnit) (a : JNum) (args : List JNum) :
    evaluateOperation M "!" (a :: args) u =
      (if !a.isInteger || JNum.jlt a (JNum.num 0) then
        Except.error "Factorial requires non-negative integer"
       else jsFactorial a) := rfl

/-!  Order facts about `JNum` comparisons. -/

theorem jlt_asymmetric (x y : JNum) (h : JNum.jlt x y = true) : JNum.jlt y x = false := by
  cases x <;> cases y <;> simp_all [JNum.jlt]
  exact le_of_lt h

theorem jeq_eq_false_of_jlt (x y : JNum) (h : JNum.jlt x y = true) :
    JNum.jeq y x = false := by
  cases x <;> cases y <;> simp_all [JNum.jlt, JNum.jeq]
  exact (ne_of_lt h).symm

theorem jeq_num_zero_iff (y : JNum) : JNum.jeq y (JNum.num 0) = true ↔ y = JNum.num 0 := by
  cases y <;> simp [JNum.jeq]

/-!  Tokenizer step lemmas. -/

/-- A minus sign read when no token has been emitted yet, or right after
an operator or left parenthesis, is promoted to `Number(-1), Operator(×)`. -/
theorem tokenizeLoop_unary_minus (rest : List Char) (acc : List Token)
    (h : unaryCtx acc = true) :
    tokenizeLoop ('-' :: rest) acc =
      tokenizeLoop rest (Token.op "×" :: Token.number (JNum.num (-1)) :: acc) := by
  simp [tokenizeLoop, findName, funcNames, FUNCTIONS, constNames, CONSTANTS,
    isNumChar, isDigitChar, List.find?, List.isPrefixOf, lookupOp, OPERATORS, h]

/-- Same promotion for the typographic minus `−`. -/
theorem tokenizeLoop_unary_minusU (rest : List Char) (acc : List Token)
    (h : unaryCtx acc = true) :
    tokenizeLoop ('−' :: rest) acc =
      tokenizeLoop rest (Token.op "×" :: Token.number (JNum.num (-1)) :: acc) := by
  simp [tokenizeLoop, findName, funcNames, FUNCTIONS, constNames, CONSTANTS,
    isNumChar, isDigitChar, List.find?, List.isPrefixOf, lookupOp, OPERATORS, h]

/-- When the function-table scan of `tokenize` finds a name at the current
position, the scanner emits exactly one FUNCTION token carrying the found
name (the first match in table order) and advances past it. -/
theorem tokenizeLoop_func_found (cs : List Char) (acc : List Token) (nm : String)
    (h : findName funcNames cs = some nm) :
    tokenizeLoop cs acc = tokenizeLoop (cs.drop nm.length) (Token.func nm :: acc) := by
  have hfind : List.find? (fun n => n.data.isPrefixOf cs) funcNames = some nm := h
  have hpre : (nm.data.isPrefixOf cs) = true := by simpa using List.find?_some hfind
  have hmem : nm ∈ funcNames := List.mem_of_find?_eq_some hfind
  simp only [funcNames, FUNCTIONS, List.map_cons, List.map_nil, List.mem_cons,
    List.not_mem_nil, or_false] at hmem
  rcases hmem with rfl|rfl|rfl|rfl|rfl|rfl|rfl|rfl|rfl|rfl|rfl|rfl|rfl|rfl|rfl|rfl|rfl|rfl|rfl|rfl
  · obtain ⟨t, rfl⟩ := List.isPrefixOf_iff_prefix.mp hpre
    have h2 : findName funcNames ('s' :: 'i' :: 'n' :: t) = some "sin" := h
    show tokenizeLoop ('s' :: 'i' :: 'n' :: t) acc =
      tokenizeLoop (List.drop ("sin".length) ('s' :: 'i' :: 'n' :: t)) (Token.func "sin" :: acc)
    simp [tokenizeLoop, h2, isNumChar, isDigitChar, String.length]
  · obtain ⟨t, rfl⟩ := List.isPrefixOf_iff_prefix.mp hpre
    have h2 : findName funcNames ('c' :: 'o' :: 's' :: t) = some "cos" := h
    show tokenizeLoop ('c' :: 'o' :: 's' :: t) acc =
      tokenizeLoop (List.drop ("cos".length) ('c' :: 'o' :: 's' :: t)) (Token.func "cos" :: acc)
    simp [tokenizeLoop, h2, isNumChar, isDigitChar, String.length]
  · obtain ⟨t, rfl⟩ := List.isPrefixOf_iff_prefix.mp hpre
    have h2 : findName funcNames ('t' :: 'a' :: 'n' :: t) = some "tan" := h
    show tokenizeLoop ('t' :: 'a' :: 'n' :: t) acc =
      tokenizeLoop (List.drop ("tan".length) ('t' :: 'a' :: 'n' :: t)) (Token.func "tan" :: acc)
    simp [tokenizeLoop, h2, isNumChar, isDigitChar, String.length]
  · obtain ⟨t, rfl⟩ := List.isPrefixOf_iff_prefix.mp hpre
    have h2 : findName funcNames ('s' :: 'i' :: 'n' :: '⁻' :: '¹' :: t) = some "sin⁻¹" := h
    show tokenizeLoop ('s' :: 'i' :: 'n' :: '⁻' :: '¹' :: t) acc =
      tokenizeLoop (List.drop ("sin⁻¹".length) ('s' :: 'i' :: 'n' :: '⁻' :: '¹' :: t)) (Token.func "sin⁻¹" :: acc)
    simp [tokenizeLoop, h2, isNumChar, isDigitChar, String.length]
  · obtain ⟨t, rfl⟩ := List.isPrefixOf_iff_prefix.mp hpre
    have h2 : findName funcNames ('c' :: 'o' :: 's' :: '⁻' :: '¹' :: t) = some "cos⁻¹" := h
    show tokenizeLoop ('c' :: 'o' :: 's' :: '⁻' :: '¹' :: t) acc =
      tokenizeLoop (List.drop ("cos⁻¹".length) ('c' :: 'o' :: 's' :: '⁻' :: '¹' :: t)) (Token.func "cos⁻¹" :: acc)
    simp [tokenizeLoop, h2, isNumChar, isDigitChar, String.length]
  · obtain ⟨t, rfl⟩ := List.isPrefixOf_iff_prefix.mp hpre
    have h2 : findName funcNames ('t' :: 'a' :: 'n' :: '⁻' :: '¹' :: t) = some "tan⁻¹" := h
    show tokenizeLoop ('t' :: 'a' :: 'n' :: '⁻' :: '¹' :: t) acc =
      tokenizeLoop (List.drop ("tan⁻¹".length) ('t' :: 'a' :: 'n' :: '⁻' :: '¹' :: t)) (Token.func "tan⁻¹" :: acc)
    simp [tokenizeLoop, h2, isNumChar, isDigitChar, String.length]
  · obtain ⟨t, rfl⟩ := List.isPrefixOf_iff_prefix.mp hpre
    have h2 : findName funcNames ('a' :: 's' :: 'i' :: 'n' :: t) = some "asin" := h
    show tokenizeLoop ('a' :: 's' :: 'i' :: 'n' :: t) acc =
      tokenizeLoop (List.drop ("asin".length) ('a' :: 's' :: 'i' :: 'n' :: t)) (Token.func "asin" :: acc)
    simp [tokenizeLoop, h2, isNumChar, isDigitChar, String.length]
  · obtain ⟨t, rfl⟩ := List.isPrefixOf_iff_prefix.mp hpre
    have h2 : findName funcNames ('a' :: 'c' :: 'o' :: 's' :: t) = some "acos" := h
    show tokenizeLoop ('a' :: 'c' :: 'o' :: 's' :: t) acc =
      tokenizeLoop (List.drop ("acos".length) ('a' :: 'c' :: 'o' :: 's' :: t)) (Token.func "acos" :: acc)
    simp [tokenizeLoop, h2, isNumChar, isDigitChar, String.length]
  · obtain ⟨t, rfl⟩ := List.isPrefixOf_iff_prefix.mp hpre
    have h2 : findName funcNames ('a' :: 't' :: 'a' :: 'n' :: t) = some "atan" := h
    show tokenizeLoop ('a' :: 't' :: 'a' :: 'n' :: t) acc =
      tokenizeLoop (List.drop ("atan".length) ('a' :: 't' :: 'a' :: 'n' :: t)) (Token.func "atan" :: acc)
    simp [tokenizeLoop, h2, isNumChar, isDigitChar, String.length]
  · obtain ⟨t, rfl⟩ := List.isPrefixOf_iff_prefix.mp hpre
    have h2 : findName funcNames ('s' :: 'i' :: 'n' :: 'h' :: t) = some "sinh" := h
    show tokenizeLoop ('s' :: 'i' :: 'n' :: 'h' :: t) acc =
      tokenizeLoop (List.drop ("sinh".length) ('s' :: 'i' :: 'n' :: 'h' :: t)) (Token.func "sinh" :: acc)
    simp [tokenizeLoop, h2, isNumChar, isDigitChar, String.length]
  · obtain ⟨t, rfl⟩ := List.isPrefixOf_iff_prefix.mp hpre
    have h2 : findName funcNames ('c' :: 'o' :: 's' :: 'h' :: t) = some "cosh" := h
    show tokenizeLoop ('c' :: 'o' :: 's' :: 'h' :: t) acc =
      tokenizeLoop (List.drop ("cosh".length) ('c' :: 'o' :: 's' :: 'h' :: t)) (Token.func "cosh" :: acc)
    simp [tokenizeLoop, h2, isNumChar, isDigitChar, String.length]
  · obtain ⟨t, rfl⟩ := List.isPrefixOf_iff_prefix.mp hpre
    have h2 : findName funcNames ('t' :: 'a' :: 'n' :: 'h' :: t) = some "tanh" := h
    show tokenizeLoop ('t' :: 'a' :: 'n' :: 'h' :: t) acc =
      tokenizeLoop (List.drop ("tanh".length) ('t' :: 'a' :: 'n' :: 'h' :: t)) (Token.func "tanh" :: acc)
    simp [tokenizeLoop, h2, isNumChar, isDigitChar, String.length]
  · obtain ⟨t, rfl⟩ := List.isPrefixOf_iff_prefix.mp hpre
    have h2 : findName funcNames ('l' :: 'o' :: 'g' :: t) = some "log" := h
    show tokenizeLoop ('l' :: 'o' :: 'g' :: t) acc =
      tokenizeLoop (List.drop ("log".length) ('l' :: 'o' :: 'g' :: t)) (Token.func "log" :: acc)
    simp [tokenizeLoop, h2, isNumChar, isDigitChar, String.length]
  · obtain ⟨t, rfl⟩ := List.isPrefixOf_iff_prefix.mp hpre
    have h2 : findName funcNames ('l' :: 'n' :: t) = some "ln" := h
    show tokenizeLoop ('l' :: 'n' :: t) acc =
      tokenizeLoop (List.drop ("ln".length) ('l' :: 'n' :: t)) (Token.func "ln" :: acc)
    simp [tokenizeLoop, h2, isNumChar, isDigitChar, String.length]
  · obtain ⟨t, rfl⟩ := List.isPrefixOf_iff_prefix.mp hpre
    have h2 : findName funcNames ('√' :: t) = some "√" := h
    show tokenizeLoop ('√' :: t) acc =
      tokenizeLoop (List.drop ("√".length) ('√' :: t)) (Token.func "√" :: acc)
    simp [tokenizeLoop, h2, isNumChar, isDigitChar, String.length]
  · obtain ⟨t, rfl⟩ := List.isPrefixOf_iff_prefix.mp hpre
    have h2 : findName funcNames ('s' :: 'q' :: 'r' :: 't' :: t) = some "sqrt" := h
    show tokenizeLoop ('s' :: 'q' :: 'r' :: 't' :: t) acc =
      tokenizeLoop (List.drop ("sqrt".length) ('s' :: 'q' :: 'r' :: 't' :: t)) (Token.func "sqrt" :: acc)
    simp [tokenizeLoop, h2, isNumChar, isDigitChar, String.length]
  · obtain ⟨t, rfl⟩ := List.isPrefixOf_iff_prefix.mp hpre
    have h2 : findName funcNames ('∛' :: t) = some "∛" := h
    show tokenizeLoop ('∛' :: t) acc =
      tokenizeLoop (List.drop ("∛".length) ('∛' :: t)) (Token.func "∛" :: acc)
    simp [tokenizeLoop, h2, isNumChar, isDigitChar, String.length]
  · obtain ⟨t, rfl⟩ := List.isPrefixOf_iff_prefix.mp hpre
    have h2 : findName funcNames ('∜' :: t) = some "∜" := h
    show tokenizeLoop ('∜' :: t) acc =
      tokenizeLoop (List.drop ("∜".length) ('∜' :: t)) (Token.func "∜" :: acc)
    simp [tokenizeLoop, h2, isNumChar, isDigitChar, String.length]
  · obtain ⟨t, rfl⟩ := List.isPrefixOf_iff_prefix.mp hpre
    have h2 : findName funcNames ('a' :: 'b' :: 's' :: t) = some "abs" := h
    show tokenizeLoop ('a' :: 'b' :: 's' :: t) acc =
      tokenizeLoop (List.drop ("abs".length) ('a' :: 'b' :: 's' :: t)) (Token.func "abs" :: acc)
    simp [tokenizeLoop, h2, isNumChar, isDigitChar, String.length]
  · obtain ⟨t, rfl⟩ := List.isPrefixOf_iff_prefix.mp hpre
    have h2 : findName funcNames ('A' :: 'b' :: 's' :: t) = some "Abs" := h
    show tokenizeLoop ('A' :: 'b' :: 's' :: t) acc =
      tokenizeLoop (List.drop ("Abs".length) ('A' :: 'b' :: 's' :: t)) (Token.func "Abs" :: acc)
    simp [tokenizeLoop, h2, isNumChar, isDigitChar, String.length]

/-!  Digit-string lemmas (the `n!` pipeline behaviour). -/

theorem takeWhile_append_all {p : Char → Bool} (l1 l2 : List Char)
    (h : ∀ c ∈ l1, p c = true) :
    (l1 ++ l2).takeWhile p = l1 ++ l2.takeWhile p := by
  induction l1 with
  | nil => simp
  | cons c t ih =>
      simp only [List.cons_append, List.takeWhile_cons, h c (by simp), if_true]
      rw [ih (fun c hc => h c (by simp [hc]))]

theorem dropWhile_append_all {p : Char → Bool} (l1 l2 : List Char)
    (h : ∀ c ∈ l1, p c = true) :
    (l1 ++ l2).dropWhile p = l2.dropWhile p := by
  induction l1 with
  | nil => simp
  | cons c t ih =>
      simp only [List.cons_append, List.dropWhile_cons, h c (by simp)]
      exact ih (fun c hc => h c (by simp [hc]))

theorem digit_isNumChar {c : Char} (h : isDigitChar c = true) : isNumChar c = true := by
  simp [isNumChar, h]

theorem digit_not_ws {c : Char} (h : isDigitChar c = true) : c.isWhitespace = false := by
  have hne : ∀ d : Char, isDigitChar d = true → d ≠ ' ' ∧ d ≠ '\t' ∧ d ≠ '\n' ∧ d ≠ '\x0d' := by
    intro d hd
    refine ⟨?_, ?_, ?_, ?_⟩ <;> rintro rfl <;> revert hd <;> decide
  obtain ⟨h1, h2, h3, h4⟩ := hne c h
  simp [Char.isWhitespace, h1, h2, h3, h4]

theorem jsParseFloat_digits (cs : List Char) (hne : cs ≠ [])
    (hd : ∀ c ∈ cs, isDigitChar c = true) :
    jsParseFloat cs = JNum.num ((digitsToNat cs : ℚ)) := by
  have ht : cs.takeWhile isDigitChar = cs := by
    have h2 := takeWhile_append_all cs [] hd
    simpa using h2
  have hdw : cs.dropWhile isDigitChar = [] := by
    have h2 := dropWhile_append_all cs [] hd
    simpa using h2
  simp [jsParseFloat, ht, hdw, hne]

theorem tokenizeLoop_digits (cs l : List Char) (acc : List Token)
    (hne : cs ≠ []) (hd : ∀ c ∈ cs, isDigitChar c = true)
    (hstop : ∀ c, l.head? = some c → isNumChar c = false) :
    tokenizeLoop (cs ++ l) acc =
      tokenizeLoop l (Token.number (JNum.num ((digitsToNat cs : ℚ))) :: acc) := by
  obtain ⟨c, rest, rfl⟩ : ∃ c rest, cs = c :: rest := by
    cases cs with
    | nil => exact absurd rfl hne
    | cons c rest => exact ⟨c, rest, rfl⟩
  have hc : isNumChar c = true := digit_isNumChar (hd c (by simp))
  have hall : ∀ d ∈ rest, isNumChar d = true :=
    fun d hdm => digit_isNumChar (hd d (by simp [hdm]))
  have htk : (rest ++ l).takeWhile isNumChar = rest := by
    rw [takeWhile_append_all rest l hall]
    cases hl : l with
    | nil => simp
    | cons c0 l0 => simp [List.takeWhile_cons, hstop c0 (by simp [hl])]
  have hdw : (rest ++ l).dropWhile isNumChar = l := by
    rw [dropWhile_append_all rest l hall]
    cases hl : l with
    | nil => simp
    | cons c0 l0 => simp [List.dropWhile_cons, hstop c0 (by simp [hl])]
  show tokenizeLoop (c :: (rest ++ l)) acc = _
  simp only [tokenizeLoop, hc, if_true, htk, hdw]
  rw [jsParseFloat_digits (c :: rest) (by simp) hd]

theorem tokenizeLoop_bang (acc : List Token) :
    tokenizeLoop ['!'] acc = acc.reverse := by
  simp [tokenizeLoop, findName, funcNames, FUNCTIONS, constNames, CONSTANTS,
    isNumChar, isDigitChar, isLetterChar, List.find?, List.isPrefixOf,
    lookupOp, OPERATORS]

theorem tokenize_digits_bang (s : String) (hne : s.data ≠ [])
    (hd : ∀ c ∈ s.data, isDigitChar c = true) :
    tokenize (s ++ "!") = [Token.number (JNum.num ((digitsToNat s.data : ℚ)))] := by
  unfold tokenize
  have hdata : (s ++ "!").data = s.data ++ ['!'] := by
    simp [String.data_append]
  rw [hdata]
  have hfilter : (s.data ++ ['!']).filter (fun c => !c.isWhitespace) = s.data ++ ['!'] := by
    rw [List.filter_append]
    have h1 : s.data.filter (fun c => !c.isWhitespace) = s.data :=
      List.filter_eq_self.mpr (fun c hc => by simp [digit_not_ws (hd c hc)])
    rw [h1]
    rfl
  rw [hfilter, tokenizeLoop_digits s.data ['!'] [] hne hd
    (by intro c hc; simp at hc; subst hc; decide), tokenizeLoop_bang]
  rfl

theorem tokenize_digits (s : String) (hne : s.data ≠ [])
    (hd : ∀ c ∈ s.data, isDigitChar c = true) :
    tokenize s = [Token.number (JNum.num ((digitsToNat s.data : ℚ)))] := by
  unfold tokenize
  have hfilter : s.data.filter (fun c => !c.isWhitespace) = s.data :=
    List.filter_eq_self.mpr (fun c hc => by simp [digit_not_ws (hd c hc)])
  rw [hfilter]
  have h2 := tokenizeLoop_digits s.data [] [] hne hd (by intro c hc; simp at hc)
  simpa [tokenizeLoop] using h2

/-!  Pipeline behaviour on a lone numeric literal. -/

theorem parseToRPN_single_number (v : JNum) :
    parseToRPN [Token.number v] = Except.ok [Token.number v] := rfl

theorem evaluate_single_number (M : NativeMath) (ctx : CalcState) (v : JNum) :
    evaluate M [Token.number v] ctx = Except.ok v := rfl

/-!  The operator case of the shunting-yard scan. -/

/-- The pop-while loop pops exactly the maximal prefix of stack-top
operators satisfying the associativity/precedence condition, then stops. -/
theorem popWhileOps_eq_span (o1 : OpInfo) (stack : List Token)
    (hwf : opsKnown stack = true) :
    popWhileOps (some o1) stack =
      Except.ok (stack.takeWhile (shouldPopT o1), stack.dropWhile (shouldPopT o1)) := by
  induction stack with
  | nil => rfl
  | cons t rest ih =>
      have hwf' : opsKnown rest = true := by
        simp only [opsKnown, List.all_cons, Bool.and_eq_true] at hwf
        exact hwf.2
      cases t with
      | op s =>
          have h1 : (lookupOp s).isSome = true := by
            simp only [opsKnown, List.all_cons, Bool.and_eq_true] at hwf
            exact hwf.1
          obtain ⟨o2, ho2⟩ := Option.isSome_iff_exists.mp h1
          by_cases hpop : shouldPop o1 o2 = true
          · simp [popWhileOps, ho2, hpop, shouldPopT, List.takeWhile_cons,
              List.dropWhile_cons, ih hwf', Except.map]
          · simp only [Bool.not_eq_true] at hpop
            simp [popWhileOps, ho2, hpop, shouldPopT, List.takeWhile_cons,
              List.dropWhile_cons]
      | number v => simp [popWhileOps, shouldPopT]
      | func f => simp [popWhileOps, shouldPopT]
      | lparen => simp [popWhileOps, shouldPopT]
      | rparen => simp [popWhileOps, shouldPopT]
      | comma => simp [popWhileOps, shouldPopT]
      | const s => simp [popWhileOps, shouldPopT]
      | var s => simp [popWhileOps, shouldPopT]

/-- The OPERATOR case of `parseToRPN`: pop the maximal run of stack
operators `op2` with (`op1` left-associative and `prec(op1) ≤ prec(op2)`)
or (`op1` right-associative and `prec(op1) < prec(op2)`) to the output,
then push `op1`. -/
theorem syStep_operator (out stack : List Token) (s : String) (o1 : OpInfo)
    (ho1 : lookupOp s = some o1) (hwf : opsKnown stack = true) :
    syStep (out, stack) (Token.op s) =
      Except.ok (out ++ stack.takeWhile (shouldPopT o1),
        Token.op s :: stack.dropWhile (shouldPopT o1)) := by
  simp [syStep, ho1, popWhileOps_eq_span o1 stack hwf, Except.map]

/-!  Parenthesis accounting for `parseToRPN`. -/

theorem popUntilLParen_eq_span (stack : List Token) :
    popUntilLParen stack =
      (stack.takeWhile (fun t => !t.isLParen), stack.dropWhile (fun t => !t.isLParen)) := by
  induction stack with
  | nil => rfl
  | cons t rest ih =>
      cases t <;> simp [popUntilLParen, Token.isLParen, List.takeWhile_cons,
        List.dropWhile_cons, ih]

theorem opsKnown_of_sublist {l1 l2 : List Token} (hs : l1.Sublist l2)
    (h : opsKnown l2 = true) : opsKnown l1 = true := by
  simp only [opsKnown, List.all_eq_true] at h ⊢
  exact fun t ht => h t (hs.subset ht)

theorem countLP_append (l1 l2 : List Token) :
    countLP (l1 ++ l2) = countLP l1 + countLP l2 :=
  List.countP_append _ _ _

theorem countLP_dropWhile_lp (stack : List Token) :
    (countLP stack = 0 ∧ stack.dropWhile (fun t => !t.isLParen) = []) ∨
    (∃ r, stack.dropWhile (fun t => !t.isLParen) = Token.lparen :: r ∧
      countLP r + 1 = countLP stack) := by
  induction stack with
  | nil => exact Or.inl ⟨rfl, rfl⟩
  | cons t rest ih =>
      cases t with
      | lparen =>
          exact Or.inr ⟨rest, by simp [List.dropWhile_cons, Token.isLParen],
            by simp [countLP, List.countP_cons, Token.isLParen]⟩
      | number v =>
          rcases ih with ⟨h1, h2⟩ | ⟨r, h1, h2⟩
          · exact Or.inl ⟨by simpa [countLP, List.countP_cons, Token.isLParen] using h1,
              by simpa [List.dropWhile_cons, Token.isLParen] using h2⟩
          · exact Or.inr ⟨r, by simpa [List.dropWhile_cons, Token.isLParen] using h1,
              by simpa [countLP, List.countP_cons, Token.isLParen] using h2⟩
      | op s =>
          rcases ih with ⟨h1, h2⟩ | ⟨r, h1, h2⟩
          · exact Or.inl ⟨by simpa [countLP, List.countP_cons, Token.isLParen] using h1,
              by simpa [List.dropWhile_cons, Token.isLParen] using h2⟩
          · exact Or.inr ⟨r, by simpa [List.dropWhile_cons, Token.isLParen] using h1,
              by simpa [countLP, List.countP_cons, Token.isLParen] using h2⟩
      | func f =>
          rcases ih with ⟨h1, h2⟩ | ⟨r, h1, h2⟩
          · exact Or.inl ⟨by simpa [countLP, List.countP_cons, Token.isLParen] using h1,
              by simpa [List.dropWhile_cons, Token.isLParen] using h2⟩
          · exact Or.inr ⟨r, by simpa [List.dropWhile_cons, Token.isLParen] using h1,
              by simpa [countLP, List.countP_cons, Token.isLParen] using h2⟩
      | rparen =>
          rcases ih with ⟨h1, h2⟩ | ⟨r, h1, h2⟩
          · exact Or.inl ⟨by simpa [countLP, List.countP_cons, Token.isLParen] using h1,
              by simpa [List.dropWhile_cons, Token.isLParen] using h2⟩
          · exact Or.inr ⟨r, by simpa [List.dropWhile_cons, Token.isLParen] using h1,
              by simpa [countLP, List.countP_cons, Token.isLParen] using h2⟩
      | comma =>
          rcases ih with ⟨h1, h2⟩ | ⟨r, h1, h2⟩
          · exact Or.inl ⟨by simpa [countLP, List.countP_cons, Token.isLParen] using h1,
              by simpa [List.dropWhile_cons, Token.isLParen] using h2⟩
          · exact Or.inr ⟨r, by simpa [List.dropWhile_cons, Token.isLParen] using h1,
              by simpa [countLP, List.countP_cons, Token.isLParen] using h2⟩
      | const s =>
          rcases ih with ⟨h1, h2⟩ | ⟨r, h1, h2⟩
          · exact Or.inl ⟨by simpa [countLP, List.countP_cons, Token.isLParen] using h1,
              by simpa [List.dropWhile_cons, Token.isLParen] using h2⟩
          · exact Or.inr ⟨r, by simpa [List.dropWhile_cons, Token.isLParen] using h1,
              by simpa [countLP, List.countP_cons, Token.isLParen] using h2⟩
      | var s =>
          rcases ih with ⟨h1, h2⟩ | ⟨r, h1, h2⟩
          · exact Or.inl ⟨by simpa [countLP, List.countP_cons, Token.isLParen] using h1,
              by simpa [List.dropWhile_cons, Token.isLParen] using h2⟩
          · exact Or.inr ⟨r, by simpa [List.dropWhile_cons, Token.isLParen] using h1,
              by simpa [countLP, List.countP_cons, Token.isLParen] using h2⟩

theorem countLP_takeWhile_shouldPop (o1 : OpInfo) (stack : List Token) :
    countLP (stack.takeWhile (shouldPopT o1)) = 0 := by
  rw [countLP, List.countP_eq_zero]
  intro t ht
  have hp := List.mem_takeWhile_imp ht
  cases t <;> simp_all [shouldPopT, Token.isLParen]

theorem popAll_error_of_lp (stack : List Token) (h : countLP stack ≠ 0) :
    popAll stack = Except.error "Mismatched parentheses" := by
  induction stack with
  | nil => exact absurd rfl h
  | cons t rest ih =>
      cases t with
      | lparen => simp [popAll, Token.isLParen, Token.isRParen]
      | rparen => simp [popAll, Token.isLParen, Token.isRParen]
      | number v =>
          have h2 : countLP rest ≠ 0 := by
            simpa [countLP, List.countP_cons, Token.isLParen] using h
          simp [popAll, Token.isLParen, Token.isRParen, ih h2, Except.map]
      | op s =>
          have h2 : countLP rest ≠ 0 := by
            simpa [countLP, List.countP_cons, Token.isLParen] using h
          simp [popAll, Token.isLParen, Token.isRParen, ih h2, Except.map]
      | func f =>
          have h2 : countLP rest ≠ 0 := by
            simpa [countLP, List.countP_cons, Token.isLParen] using h
          simp [popAll, Token.isLParen, Token.isRParen, ih h2, Except.map]
      | comma =>
          have h2 : countLP rest ≠ 0 := by
            simpa [countLP, List.countP_cons, Token.isLParen] using h
          simp [popAll, Token.isLParen, Token.isRParen, ih h2, Except.map]
      | const s =>
          have h2 : countLP rest ≠ 0 := by
            simpa [countLP, List.countP_cons, Token.isLParen] using h
          simp [popAll, Token.isLParen, Token.isRParen, ih h2, Except.map]
      | var s =>
          have h2 : countLP rest ≠ 0 := by
            simpa [countLP, List.countP_cons, Token.isLParen] using h
          simp [popAll, Token.isLParen, Token.isRParen, ih h2, Except.map]

/-- The scan of an unbalanced token sequence (relative to the left
parentheses already on the stack) either raises the mismatched-parenthesis
error (a right parenthesis emptied the stack), or ends with at least one
left parenthesis still on the operator stack. -/
theorem syRun_unbalanced (ts : List Token) :
    ∀ out stack, opsKnown ts = true → opsKnown stack = true →
    parenDepthOk ts (countLP stack) = false →
    syRun ts (out, stack) = Except.error "Mismatched parentheses" ∨
    ∃ st', syRun ts (out, stack) = Except.ok st' ∧ countLP st'.2 ≠ 0 := by
  induction ts with
  | nil =>
      intro out stack _ _ hbal
      refine Or.inr ⟨(out, stack), rfl, ?_⟩
      simpa [parenDepthOk] using hbal
  | cons t rest ih =>
      intro out stack hwt hwstack hbal
      have hwrest : opsKnown rest = true := by
        simp only [opsKnown, List.all_cons, Bool.and_eq_true] at hwt
        exact hwt.2
      cases t with
      | number v =>
          have hstep : syRun (Token.number v :: rest) (out, stack) =
              syRun rest (out ++ [Token.number v], stack) := by
            simp [syRun, syStep]
          rw [hstep]
          exact ih _ _ hwrest hwstack
            (by simpa [parenDepthOk, Token.isLParen, Token.isRParen] using hbal)
      | const s =>
          have hstep : syRun (Token.const s :: rest) (out, stack) =
              syRun rest (out ++ [Token.const s], stack) := by
            simp [syRun, syStep]
          rw [hstep]
          exact ih _ _ hwrest hwstack
            (by simpa [parenDepthOk, Token.isLParen, Token.isRParen] using hbal)
      | var s =>
          have hstep : syRun (Token.var s :: rest) (out, stack) =
              syRun rest (out ++ [Token.var s], stack) := by
            simp [syRun, syStep]
          rw [hstep]
          exact ih _ _ hwrest hwstack
            (by simpa [parenDepthOk, Token.isLParen, Token.isRParen] using hbal)
      | func f =>
          have hstep : syRun (Token.func f :: rest) (out, stack) =
              syRun rest (out, Token.func f :: stack) := by
            simp [syRun, syStep]
          rw [hstep]
          refine ih _ _ hwrest ?_ ?_
          · simpa [opsKnown, List.all_cons] using hwstack
          · simpa [parenDepthOk, Token.isLParen, Token.isRParen, countLP,
              List.countP_cons] using hbal
      | lparen =>
          have hstep : syRun (Token.lparen :: rest) (out, stack) =
              syRun rest (out, Token.lparen :: stack) := by
            simp [syRun, syStep]
          rw [hstep]
          refine ih _ _ hwrest ?_ ?_
          · simpa [opsKnown, List.all_cons] using hwstack
          · have : countLP (Token.lparen :: stack) = countLP stack + 1 := by
              simp [countLP, List.countP_cons, Token.isLParen]
            rw [this]
            simpa [parenDepthOk, Token.isLParen] using hbal
      | comma =>
          rcases countLP_dropWhile_lp stack with ⟨h0, hdrop⟩ | ⟨r, hdrop, hcnt⟩
          · have hstep : syRun (Token.comma :: rest) (out, stack) =
                syRun rest (out ++ stack.takeWhile (fun t => !t.isLParen), []) := by
              simp [syRun, syStep, popUntilLParen_eq_span, hdrop]
            rw [hstep]
            refine ih _ _ hwrest rfl ?_
            have hc : countLP ([] : List Token) = countLP stack := by
              simp only [countLP] at h0 ⊢
              simp [h0]
            rw [hc]
            simpa [parenDepthOk, Token.isLParen, Token.isRParen] using hbal
          · have hstep : syRun (Token.comma :: rest) (out, stack) =
                syRun rest (out ++ stack.takeWhile (fun t => !t.isLParen),
                  Token.lparen :: r) := by
              simp [syRun, syStep, popUntilLParen_eq_span, hdrop]
            rw [hstep]
            have hsub : (Token.lparen :: r).Sublist stack := by
              rw [← hdrop]
              exact List.dropWhile_sublist _
            refine ih _ _ hwrest (opsKnown_of_sublist hsub hwstack) ?_
            have hc : countLP (Token.lparen :: r) = countLP stack := by
              simp [countLP, List.countP_cons, Token.isLParen] at hcnt ⊢
              omega
            rw [hc]
            simpa [parenDepthOk, Token.isLParen, Token.isRParen] using hbal
      | op s =>
          have hs : (lookupOp s).isSome = true := by
            simp only [opsKnown, List.all_cons, Bool.and_eq_true] at hwt
            exact hwt.1
          obtain ⟨o1, ho1⟩ := Option.isSome_iff_exists.mp hs
          have hstep : syRun (Token.op s :: rest) (out, stack) =
              syRun rest (out ++ stack.takeWhile (shouldPopT o1),
                Token.op s :: stack.dropWhile (shouldPopT o1)) := by
            simp [syRun, syStep_operator out stack s o1 ho1 hwstack]
          rw [hstep]
          have hsub : (stack.dropWhile (shouldPopT o1)).Sublist stack :=
            List.dropWhile_sublist _
          have hwf' : opsKnown (Token.op s :: stack.dropWhile (shouldPopT o1)) = true := by
            simp only [opsKnown, List.all_cons, Bool.and_eq_true]
            exact ⟨hs, opsKnown_of_sublist hsub hwstack⟩
          refine ih _ _ hwrest hwf' ?_
          have hc : countLP (Token.op s :: stack.dropWhile (shouldPopT o1)) =
              countLP stack := by
            conv_rhs => rw [← List.takeWhile_append_dropWhile (p := shouldPopT o1) (l := stack)]
            rw [countLP_append, countLP_takeWhile_shouldPop]
            simp [countLP, List.countP_cons, Token.isLParen]
          rw [hc]
          simpa [parenDepthOk, Token.isLParen, Token.isRParen] using hbal
      | rparen =>
          rcases countLP_dropWhile_lp stack with ⟨h0, hdrop⟩ | ⟨r, hdrop, hcnt⟩
          · left
            simp [syRun, syStep, popUntilLParen_eq_span, hdrop]
          · have hdOk : parenDepthOk rest (countLP r) = false := by
              have h2 : countLP stack = countLP r + 1 := by omega
              rw [h2] at hbal
              simpa [parenDepthOk, Token.isLParen, Token.isRParen] using hbal
            have hsubr : r.Sublist stack := by
              have h3 : (Token.lparen :: r).Sublist stack := by
                rw [← hdrop]
                exact List.dropWhile_sublist _
              exact (List.sublist_cons_self _ _).trans h3
            cases r with
            | nil =>
                have hstep : syRun (Token.rparen :: rest) (out, stack) =
                    syRun rest (out ++ stack.takeWhile (fun t => !t.isLParen), []) := by
                  simp [syRun, syStep, popUntilLParen_eq_span, hdrop]
                rw [hstep]
                refine ih _ _ hwrest rfl ?_
                simpa [countLP] using hdOk
            | cons t2 r2 =>
                cases t2 with
                | func f =>
                    have hstep : syRun (Token.rparen :: rest) (out, stack) =
                        syRun rest
                          (out ++ stack.takeWhile (fun t => !t.isLParen) ++ [Token.func f],
                            r2) := by
                      simp [syRun, syStep, popUntilLParen_eq_span, hdrop]
                    rw [hstep]
                    have hsub2 : r2.Sublist stack :=
                      (List.sublist_cons_self _ _).trans hsubr
                    refine ih _ _ hwrest (opsKnown_of_sublist hsub2 hwstack) ?_
                    have hc : countLP r2 = countLP (Token.func f :: r2) := by
                      simp [countLP, List.countP_cons, Token.isLParen]
                    rw [hc]
                    exact hdOk
                | number v =>
                    have hstep : syRun (Token.rparen :: rest) (out, stack) =
                        syRun rest (out ++ stack.takeWhile (fun t => !t.isLParen),
                          Token.number v :: r2) := by
                      simp [syRun, syStep, popUntilLParen_eq_span, hdrop]
                    rw [hstep]
                    exact ih _ _ hwrest (opsKnown_of_sublist hsubr hwstack) hdOk
                | op s2 =>
                    have hstep : syRun (Token.rparen :: rest) (out, stack) =
                        syRun rest (out ++ stack.takeWhile (fun t => !t.isLParen),
                          Token.op s2 :: r2) := by
                      simp [syRun, syStep, popUntilLParen_eq_span, hdrop]
                    rw [hstep]
                    exact ih _ _ hwrest (opsKnown_of_sublist hsubr hwstack) hdOk
                | lparen =>
                    have hstep : syRun (Token.rparen :: rest) (out, stack) =
                        syRun rest (out ++ stack.takeWhile (fun t => !t.isLParen),
                          Token.lparen :: r2) := by
                      simp [syRun, syStep, popUntilLParen_eq_span, hdrop]
                    rw [hstep]
                    exact ih _ _ hwrest (opsKnown_of_sublist hsubr hwstack) hdOk
                | rparen =>
                    have hstep : syRun (Token.rparen :: rest) (out, stack) =
                        syRun rest (out ++ stack.takeWhile (fun t => !t.isLParen),
                          Token.rparen :: r2) := by
                      simp [syRun, syStep, popUntilLParen_eq_span, hdrop]
                    rw [hstep]
                    exact ih _ _ hwrest (opsKnown_of_sublist hsubr hwstack) hdOk
                | comma =>
                    have hstep : syRun (Token.rparen :: rest) (out, stack) =
                        syRun rest (out ++ stack.takeWhile (fun t => !t.isLParen),
                          Token.comma :: r2) := by
                      simp [syRun, syStep, popUntilLParen_eq_span, hdrop]
                    rw [hstep]
                    exact ih _ _ hwrest (opsKnown_of_sublist hsubr hwstack) hdOk
                | const s2 =>
                    have hstep : syRun (Token.rparen :: rest) (out, stack) =
                        syRun rest (out ++ stack.takeWhile (fun t => !t.isLParen),
                          Token.const s2 :: r2) := by
                      simp [syRun, syStep, popUntilLParen_eq_span, hdrop]
                    rw [hstep]
                    exact ih _ _ hwrest (opsKnown_of_sublist hsubr hwstack) hdOk
                | var s2 =>
                    have hstep : syRun (Token.rparen :: rest) (out, stack) =
                        syRun rest (out ++ stack.takeWhile (fun t => !t.isLParen),
                          Token.var s2 :: r2) := by
                      simp [syRun, syStep, popUntilLParen_eq_span, hdrop]
                    rw [hstep]
                    exact ih _ _ hwrest (opsKnown_of_sublist hsubr hwstack) hdOk

/-!  Transactional state discipline of the numeric subsystem. -/

theorem solveF_state (M : NativeMath) (e v : String) (val : JNum) (st : CalcState) :
    (solveF M e v val st).2 = st := by
  unfold solveF
  rcases h : evaluateWithState M e { st with memory := updateMem st.memory v.toUpper (some val) } with e1 | r1 <;>
    simp [h]

theorem createFn_state (M : NativeMath) (e v : String) (val : JNum) (st : CalcState) :
    (createFunctionFromExpression M e v val st).2 = st := by
  unfold createFunctionFromExpression
  rcases h : evaluateWithState M e { st with memory := updateMem st.memory v.toUpper (some val) } with e1 | r1 <;>
    simp [h]

theorem solveF_result (M : NativeMath) (e v : String) (val : JNum) (st : CalcState) :
    (solveF M e v val st).1 =
      evaluateWithState M e { st with memory := updateMem st.memory v.toUpper (some val) } := by
  unfold solveF
  rcases h : evaluateWithState M e { st with memory := updateMem st.memory v.toUpper (some val) } with e1 | r1 <;>
    simp [h]

theorem createFn_result (M : NativeMath) (e v : String) (val : JNum) (st : CalcState) :
    (createFunctionFromExpression M e v val st).1 =
      evaluateWithState M e { st with memory := updateMem st.memory v.toUpper (some val) } := by
  unfold createFunctionFromExpression
  rcases h : evaluateWithState M e { st with memory := updateMem st.memory v.toUpper (some val) } with e1 | r1 <;>
    simp [h]

theorem bisectionLoop_state (f : FnS) (hf : ∀ v s, (f v s).2 = s) (tol : JNum) :
    ∀ fuel a b fa fb st, (bisectionLoop f tol fuel a b fa fb st).2 = st := by
  intro fuel
  induction fuel with
  | zero => intro a b fa fb st; rfl
  | succ n ihn =>
      intro a b fa fb st
      simp only [bisectionLoop]
      split
      · rename_i res st1 heq
        have h2 := hf (JNum.jdiv (JNum.jadd a b) (JNum.num 2)) st
        rw [heq] at h2
        exact h2
      · rename_i fc st1 heq
        have h2 := hf (JNum.jdiv (JNum.jadd a b) (JNum.num 2)) st
        rw [heq] at h2
        subst h2
        split
        · rfl
        · split
          · exact ihn _ _ _ _ _
          · exact ihn _ _ _ _ _

theorem bisection_state (f : FnS) (hf : ∀ v s, (f v s).2 = s)
    (a b tol : JNum) (maxIterations : ℕ) (st : CalcState) :
    (bisection f a b tol maxIterations st).2 = st := by
  unfold bisection
  split
  · rename_i res st1 heq
    have h2 := hf a st
    rw [heq] at h2
    exact h2
  · rename_i fa st1 heq
    have h2 := hf a st
    rw [heq] at h2
    subst h2
    split
    · rename_i res st2 heq2
      have h3 := hf b st1
      rw [heq2] at h3
      exact h3
    · rename_i fb st2 heq2
      have h3 := hf b st1
      rw [heq2] at h3
      subst h3
      split
      · rfl
      · split
        · rfl
        · split
          · rfl
          · exact bisectionLoop_state f hf tol _ _ _ _ _ _

theorem newtonDf_state (f : FnS) (hf : ∀ v s, (f v s).2 = s) (h : JNum) :
    ∀ v s, (newtonDf f h v s).2 = s := by
  intro x st
  unfold newtonDf
  split
  · rename_i res st1 heq
    have h2 := hf (JNum.jadd x h) st
    rw [heq] at h2
    exact h2
  · rename_i v1 st1 heq
    have h2 := hf (JNum.jadd x h) st
    rw [heq] at h2
    subst h2
    split
    · rename_i res st2 heq2
      have h3 := hf (JNum.jsub x h) st1
      rw [heq2] at h3
      exact h3
    · rename_i v2 st2 heq2
      have h3 := hf (JNum.jsub x h) st1
      rw [heq2] at h3
      subst h3
      rfl

theorem newtonLoop_state (f df : FnS) (hf : ∀ v s, (f v s).2 = s)
    (hdf : ∀ v s, (df v s).2 = s) (tol : JNum) :
    ∀ fuel x st, (newtonLoop f df tol fuel x st).2 = st := by
  intro fuel
  induction fuel with
  | zero => intro x st; rfl
  | succ n ihn =>
      intro x st
      simp only [newtonLoop]
      split
      · rename_i res st1 heq
        have h2 := hf x st
        rw [heq] at h2
        exact h2
      · rename_i fx st1 heq
        have h2 := hf x st
        rw [heq] at h2
        subst h2
        split
        · rfl
        · split
          · rename_i res st2 heq2
            have h3 := hdf x st1
            rw [heq2] at h3
            exact h3
          · rename_i dfx st2 heq2
            have h3 := hdf x st1
            rw [heq2] at h3
            subst h3
            split
            · rfl
            · split
              · rfl
              · exact ihn _ _

theorem newton_state (f : FnS) (hf : ∀ v s, (f v s).2 = s) (x0 tol : JNum)
    (maxIterations : ℕ) (h : JNum) (st : CalcState) :
    (newton f x0 tol maxIterations none h st).2 = st := by
  unfold newton
  exact newtonLoop_state f _ hf (newtonDf_state f hf h) tol _ _ _

theorem secantLoop_state (f : FnS) (hf : ∀ v s, (f v s).2 = s) (tol : JNum) :
    ∀ fuel x0 x1 st, (secantLoop f tol fuel x0 x1 st).2 = st := by
  intro fuel
  induction fuel with
  | zero => intro x0 x1 st; rfl
  | succ n ihn =>
      intro x0 x1 st
      simp only [secantLoop]
      split
      · rename_i res st1 heq
        have h2 := hf x0 st
        rw [heq] at h2
        exact h2
      · rename_i fx0 st1 heq
        have h2 := hf x0 st
        rw [heq] at h2
        subst h2
        split
        · rename_i res st2 heq2
          have h3 := hf x1 st1
          rw [heq2] at h3
          exact h3
        · rename_i fx1 st2 heq2
          have h3 := hf x1 st1
          rw [heq2] at h3
          subst h3
          split
          · rfl
          · split
            · rfl
            · split
              · rfl
              · exact ihn _ _ _

theorem secant_state (f : FnS) (hf : ∀ v s, (f v s).2 = s) (x0 x1 tol : JNum)
    (maxIterations : ℕ) (st : CalcState) :
    (secant f x0 x1 tol maxIterations st).2 = st :=
  secantLoop_state f hf tol maxIterations x0 x1 st

theorem brentCont_state (f : FnS) (hf : ∀ v s, (f v s).2 = s) (tol : JNum) (n : ℕ)
    (ihn : ∀ a b c d e fa fb fc st, (brentLoop f tol n a b c d e fa fb fc st).2 = st)
    (A B C D E FA FC x : JNum) (st : CalcState) :
    (match f x st with
     | (Except.error err, st1) => (Except.error err, st1)
     | (Except.ok fb2, st1) => brentLoop f tol n A B C D E FA fb2 FC st1).2 = st := by
  split
  · rename_i err st1 heq
    have h3 := congrArg Prod.snd heq
    simp only at h3
    rw [← h3]
    exact hf _ st
  · rename_i r st1 heq
    have h3 := congrArg Prod.snd heq
    simp only at h3
    have h4 : st1 = st := by
      rw [← h3]
      exact hf _ st
    subst h4
    exact ihn _ _ _ _ _ _ _ _ _

theorem brentLoop_state (f : FnS) (hf : ∀ v s, (f v s).2 = s) (tol : JNum) :
    ∀ fuel a b c d e fa fb fc st, (brentLoop f tol fuel a b c d e fa fb fc st).2 = st := by
  intro fuel
  induction fuel with
  | zero => intro a b c d e fa fb fc st; rfl
  | succ n ihn =>
      intro a b c d e fa fb fc st
      unfold brentLoop
      split
      · rfl
      · lift_lets
        intros
        split
        · rfl
        · exact brentCont_state f hf tol n ihn _ _ _ _ _ _ _ _ st
theorem brent_state (f : FnS) (hf : ∀ v s, (f v s).2 = s) (a b tol : JNum)
    (maxIterations : ℕ) (st : CalcState) :
    (brent f a b tol maxIterations st).2 = st := by
  unfold brent
  split
  · rename_i res st1 heq
    have h2 := hf a st
    rw [heq] at h2
    exact h2
  · rename_i fa st1 heq
    have h2 := hf a st
    rw [heq] at h2
    subst h2
    split
    · rename_i res st2 heq2
      have h3 := hf b st1
      rw [heq2] at h3
      exact h3
    · rename_i fb st2 heq2
      have h3 := hf b st1
      rw [heq2] at h3
      subst h3
      split
      · rfl
      · exact brentLoop_state f hf tol _ _ _ _ _ _ _ _ _ _

theorem expandLoop_state (f : FnS) (hf : ∀ v s, (f v s).2 = s) (g tol : JNum)
    (maxIterations : ℕ) :
    ∀ l st, (expandLoop f g tol maxIterations l st).2 = st := by
  intro l
  induction l with
  | nil => intro st; exact newton_state f hf g tol maxIterations _ st
  | cons i is ihn =>
      intro st
      simp only [expandLoop]
      split
      · rename_i res st1 heq
        have h2 : st1 = st := by
          have h3 := congrArg Prod.snd heq
          simp only at h3
          rw [← h3]
          exact hf _ st
        rw [h2]
      · rename_i fa st1 heq
        have h2 : st1 = st := by
          have h3 := congrArg Prod.snd heq
          simp only at h3
          rw [← h3]
          exact hf _ st
        subst h2
        split
        · rename_i res st2 heq2
          have h3 : st2 = st1 := by
            have h4 := congrArg Prod.snd heq2
            simp only at h4
            rw [← h4]
            exact hf _ st1
          rw [h3]
        · rename_i fb st2 heq2
          have h3 : st2 = st1 := by
            have h4 := congrArg Prod.snd heq2
            simp only at h4
            rw [← h4]
            exact hf _ st1
          subst h3
          split
          · exact brent_state f hf _ _ tol maxIterations _
          · exact ihn _

theorem wrapSolverErr_state (r : Except String JNum × CalcState) :
    (wrapSolverErr r).2 = r.2 := by
  rcases r with ⟨res, st⟩
  cases res <;> rfl

theorem solve_state (M : NativeMath) (e v : String) (g : JNum) (o : SolveOpts)
    (st : CalcState) : (solve M e v g o st).2 = st := by
  have hf : ∀ val s, (solveF M e v val s).2 = s := solveF_state M e v
  unfold solve
  rw [wrapSolverErr_state]
  dsimp only
  split
  · split
    · split
      · rfl
      · exact bisection_state _ hf _ _ _ _ _
    · rfl
  · exact newton_state _ hf _ _ _ _ _
  · exact secant_state _ hf _ _ _ _ _
  · split
    · rename_i res st1 heq
      have h2 : st1 = st := by
        have h3 := congrArg Prod.snd heq
        simp only at h3
        rw [← h3]
        exact hf _ st
      rw [h2]
    · rename_i fa st1 heq
      have h2 : st1 = st := by
        have h3 := congrArg Prod.snd heq
        simp only at h3
        rw [← h3]
        exact hf _ st
      subst h2
      split
      · rename_i res st2 heq2
        have h3 : st2 = st1 := by
          have h4 := congrArg Prod.snd heq2
          simp only at h4
          rw [← h4]
          exact hf _ st1
        rw [h3]
      · rename_i fb st2 heq2
        have h3 : st2 = st1 := by
          have h4 := congrArg Prod.snd heq2
          simp only at h4
          rw [← h4]
          exact hf _ st1
        subst h3
        split
        · exact expandLoop_state _ hf _ _ _ _ _
        · exact brent_state _ hf _ _ _ _ _

theorem adaptiveSimpson_state (f : FnS) (hf : ∀ v s, (f v s).2 = s) :
    ∀ depth a b epsilon S fa fb fc st,
      (adaptiveSimpson f a b epsilon S fa fb fc depth st).2 = st := by
  intro depth
  induction depth with
  | zero =>
      intro a b epsilon S fa fb fc st
      unfold adaptiveSimpson
      dsimp only
      split
      · rename_i err st1 heq
        have h3 := congrArg Prod.snd heq
        simp only at h3
        rw [← h3]
        exact hf _ st
      · rename_i fd st1 heq
        have h4 : st1 = st := by
          have h3 := congrArg Prod.snd heq
          simp only at h3
          rw [← h3]
          exact hf _ st
        subst h4
        split
        · rename_i err st2 heq2
          have h3 := congrArg Prod.snd heq2
          simp only at h3
          rw [← h3]
          exact hf _ st1
        · rename_i fe st2 heq2
          have h4 : st2 = st1 := by
            have h3 := congrArg Prod.snd heq2
            simp only at h3
            rw [← h3]
            exact hf _ st1
          subst h4
          split
          · rfl
          · rfl
  | succ dp ihn =>
      intro a b epsilon S fa fb fc st
      unfold adaptiveSimpson
      dsimp only
      split
      · rename_i err st1 heq
        have h3 := congrArg Prod.snd heq
        simp only at h3
        rw [← h3]
        exact hf _ st
      · rename_i fd st1 heq
        have h4 : st1 = st := by
          have h3 := congrArg Prod.snd heq
          simp only at h3
          rw [← h3]
          exact hf _ st
        subst h4
        split
        · rename_i err st2 heq2
          have h3 := congrArg Prod.snd heq2
          simp only at h3
          rw [← h3]
          exact hf _ st1
        · rename_i fe st2 heq2
          have h4 : st2 = st1 := by
            have h3 := congrArg Prod.snd heq2
            simp only at h3
            rw [← h3]
            exact hf _ st1
          subst h4
          split
          · rfl
          · split
            · rfl
            · split
              · rename_i err st3 heq3
                have h3 := congrArg Prod.snd heq3
                simp only at h3
                rw [← h3]
                exact ihn _ _ _ _ _ _ _ _
              · rename_i rl st3 heq3
                have h5 : st3 = st2 := by
                  have h3 := congrArg Prod.snd heq3
                  simp only at h3
                  rw [← h3]
                  exact ihn _ _ _ _ _ _ _ _
                subst h5
                split
                · rename_i err st4 heq4
                  have h3 := congrArg Prod.snd heq4
                  simp only at h3
                  rw [← h3]
                  exact ihn _ _ _ _ _ _ _ _
                · rename_i rr st4 heq4
                  have h6 : st4 = st3 := by
                    have h3 := congrArg Prod.snd heq4
                    simp only at h3
                    rw [← h3]
                    exact ihn _ _ _ _ _ _ _ _
                  subst h6
                  rfl

theorem wrapIntegrationErr_state (r : Except String JNum × CalcState) :
    (wrapIntegrationErr r).2 = r.2 := by
  rcases r with ⟨res, st⟩
  cases res <;> rfl

theorem integrateBody_state (f : FnS) (hf : ∀ v s, (f v s).2 = s)
    (a b : JNum) (o : IntOpts) (st : CalcState) :
    (integrateBody f a b o st).2 = st := by
  unfold integrateBody
  rw [wrapIntegrationErr_state]
  split
  · rename_i err st1 heq
    have h3 := congrArg Prod.snd heq
    simp only at h3
    rw [← h3]
    exact hf _ st
  · rename_i fa st1 heq
    have h4 : st1 = st := by
      have h3 := congrArg Prod.snd heq
      simp only at h3
      rw [← h3]
      exact hf _ st
    subst h4
    split
    · rename_i err st2 heq2
      have h3 := congrArg Prod.snd heq2
      simp only at h3
      rw [← h3]
      exact hf _ st1
    · rename_i fb st2 heq2
      have h4 : st2 = st1 := by
        have h3 := congrArg Prod.snd heq2
        simp only at h3
        rw [← h3]
        exact hf _ st1
      subst h4
      split
      · rename_i err st3 heq3
        have h3 := congrArg Prod.snd heq3
        simp only at h3
        rw [← h3]
        exact hf _ st2
      · rename_i fc st3 heq3
        have h4 : st3 = st2 := by
          have h3 := congrArg Prod.snd heq3
          simp only at h3
          rw [← h3]
          exact hf _ st2
        subst h4
        split
        · rfl
        · exact adaptiveSimpson_state f hf _ _ _ _ _ _ _ _ _

theorem resolveIntegrand_expr_state (M : NativeMath) (s varName : String) :
    ∀ v st, (resolveIntegrand M (Integrand.expr s) varName v st).2 = st := by
  intro v st
  exact createFn_state M s varName v st

theorem integrate_state (M : NativeMath) (s : String) (a b : JNum) (o : IntOpts)
    (st : CalcState) : (integrate M (Integrand.expr s) a b o st).2 = st := by
  unfold integrate
  split
  · rfl
  · split
    · rfl
    · split
      · rename_i hba
        have hswap : (integrate M (Integrand.expr s) b a o st).2 = st := by
          unfold integrate
          split
          · rfl
          · split
            · rfl
            · split
              · rename_i hab
                exact absurd hab (by simp [jlt_asymmetric b a hba])
              · exact integrateBody_state _ (resolveIntegrand_expr_state M s o.varName) _ _ _ _
        exact hswap
      · exact integrateBody_state _ (resolveIntegrand_expr_state M s o.varName) _ _ _ _

/-!  The early-exit structure of `integrate`. -/

theorem integrate_eq_zero (M : NativeMath) (func : Integrand) (a b : JNum)
    (o : IntOpts) (st : CalcState) (ha : a.isFinite = true) (hb : b.isFinite = true)
    (heq : JNum.jeq a b = true) :
    integrate M func a b o st = (Except.ok (JNum.num 0), st) := by
  unfold integrate
  simp [ha, hb, heq]

theorem integrate_swap (M : NativeMath) (func : Integrand) (a b : JNum)
    (o : IntOpts) (st : CalcState) (ha : a.isFinite = true) (hb : b.isFinite = true)
    (hba : JNum.jlt b a = true) :
    integrate M func a b o st =
      ((integrate M func b a o st).1.map JNum.jneg, (integrate M func b a o st).2) := by
  have hne : JNum.jeq a b = false := jeq_eq_false_of_jlt b a hba
  conv_lhs => rw [integrate]
  simp [ha, hb, hne, hba]

/-!  Factorial lemmas (`mathEngine/utils.js`). -/

theorem factLoop_prod (k : ℕ) :
    List.foldl (fun (r : ℚ) (i : ℕ) => r * (i : ℚ)) 1 (List.range' 2 k) =
      (Nat.factorial (k + 1) : ℚ) := by
  induction k with
  | zero => simp [Nat.factorial]
  | succ k ih =>
      rw [List.range'_concat, List.foldl_append]
      simp only [List.foldl_cons, List.foldl_nil, ih]
      have h3 : (k + 1 + 1).factorial = (k + 2) * (k + 1).factorial := by
        rw [show k + 1 + 1 = (k + 1) + 1 from rfl, Nat.factorial_succ]
      rw [h3]
      push_cast
      ring

theorem factLoop_eq_factorial (n : ℕ) (h : 1 ≤ n) :
    factLoop n = (Nat.factorial n : ℚ) := by
  unfold factLoop
  have h2 : n - 1 + 1 = n := Nat.succ_pred_eq_of_pos h
  rw [factLoop_prod, h2]

theorem jsFactorial_small (n : ℕ) (h : n ≤ 170) :
    jsFactorial (JNum.num (n : ℚ)) = Except.ok (JNum.num (Nat.factorial n : ℚ)) := by
  unfold jsFactorial
  have hden : ((n : ℚ)).den = 1 := Rat.den_natCast n
  have hnn : ¬((n : ℚ) < 0) := not_lt.mpr (by positivity)
  have hnum : ((n : ℚ)).num.toNat = n := by
    rw [Rat.num_natCast]
    exact Int.toNat_natCast n
  simp only [hden, hnn, hnum]
  by_cases h0 : n = 0
  · subst h0; norm_num [Nat.factorial]
  · by_cases h1 : n = 1
    · subst h1; norm_num [Nat.factorial]
    · have h170 : ¬(170 < n) := by omega
      simp [h0, h1, h170, factLoop_eq_factorial n (by omega)]

theorem jsFactorial_saturates (n : ℕ) (h : 170 < n) :
    jsFactorial (JNum.num (n : ℚ)) = Except.ok JNum.inf := by
  unfold jsFactorial
  have hden : ((n : ℚ)).den = 1 := Rat.den_natCast n
  have hnn : ¬((n : ℚ) < 0) := not_lt.mpr (by positivity)
  have hnum : ((n : ℚ)).num.toNat = n := by
    rw [Rat.num_natCast]
    exact Int.toNat_natCast n
  have h0 : ¬(n = 0) := by omega
  have h1 : ¬(n = 1) := by omega
  simp [hden, hnn, hnum, h0, h1, h]

/-!  The fourth root of a negative number. -/

theorem quarter_den_ne_one : ((1 / 4 : ℚ)).den ≠ 1 := by norm_num

theorem jpow_quarter_neg (pf : ℚ → ℚ → JNum) (q : ℚ) (h : q < 0) :
    JNum.jpow pf (JNum.num q) (JNum.num (1 / 4)) = JNum.nan := by
  unfold JNum.jpow
  have h4 : ¬((1 / 4 : ℚ) = 0) := by norm_num
  have hq0 : ¬(q = 0) := ne_of_lt h
  simp [h4, hq0, quarter_den_ne_one, h]

/-!  Concrete tokenizations and parses of the spec's examples. -/

theorem tok_ex1 :
    tokenize "2+3*4" =
      [Token.number (JNum.num (2)),
      Token.op "+",
      Token.number (JNum.num (3)),
      Token.op "*",
      Token.number (JNum.num (4))] := by
  show tokenizeLoop ['2','+','3','*','4'] [] = _
  simp [tokenizeLoop, findName, funcNames, FUNCTIONS, constNames, CONSTANTS,
    isNumChar, isDigitChar, isLetterChar, unaryCtx, Token.isOp, Token.isLParen,
    lookupOp, OPERATORS, List.find?, List.isPrefixOf, String.length,
    jsParseFloat, digitsToNat]

theorem rpn_ex1 :
    parse "2+3*4" =
      Except.ok [Token.number (JNum.num (2)),
      Token.number (JNum.num (3)),
      Token.number (JNum.num (4)),
      Token.op "*",
      Token.op "+"] := by
  rw [parse, tok_ex1]
  decide

theorem tok_ex2 :
    tokenize "(2+3)*4" =
      [Token.lparen,
      Token.number (JNum.num (2)),
      Token.op "+",
      Token.number (JNum.num (3)),
      Token.rparen,
      Token.op "*",
      Token.number (JNum.num (4))] := by
  show tokenizeLoop ['(','2','+','3',')','*','4'] [] = _
  simp [tokenizeLoop, findName, funcNames, FUNCTIONS, constNames, CONSTANTS,
    isNumChar, isDigitChar, isLetterChar, unaryCtx, Token.isOp, Token.isLParen,
    lookupOp, OPERATORS, List.find?, List.isPrefixOf, String.length,
    jsParseFloat, digitsToNat]

theorem rpn_ex2 :
    parse "(2+3)*4" =
      Except.ok [Token.number (JNum.num (2)),
      Token.number (JNum.num (3)),
      Token.op "+",
      Token.number (JNum.num (4)),
      Token.op "*"] := by
  rw [parse, tok_ex2]
  decide

theorem tok_ex3 :
    tokenize "2^3^2" =
      [Token.number (JNum.num (2)),
      Token.op "^",
      Token.number (JNum.num (3)),
      Token.op "^",
      Token.number (JNum.num (2))] := by
  show tokenizeLoop ['2','^','3','^','2'] [] = _
  simp [tokenizeLoop, findName, funcNames, FUNCTIONS, constNames, CONSTANTS,
    isNumChar, isDigitChar, isLetterChar, unaryCtx, Token.isOp, Token.isLParen,
    lookupOp, OPERATORS, List.find?, List.isPrefixOf, String.length,
    jsParseFloat, digitsToNat]

theorem rpn_ex3 :
    parse "2^3^2" =
      Except.ok [Token.number (JNum.num (2)),
      Token.number (JNum.num (3)),
      Token.number (JNum.num (2)),
      Token.op "^",
      Token.op "^"] := by
  rw [parse, tok_ex3]
  decide

theorem tok_ex4 :
    tokenize "-3+5" =
      [Token.number (JNum.num (-1)),
      Token.op "×",
      Token.number (JNum.num (3)),
      Token.op "+",
      Token.number (JNum.num (5))] := by
  show tokenizeLoop ['-','3','+','5'] [] = _
  simp [tokenizeLoop, findName, funcNames, FUNCTIONS, constNames, CONSTANTS,
    isNumChar, isDigitChar, isLetterChar, unaryCtx, Token.isOp, Token.isLParen,
    lookupOp, OPERATORS, List.find?, List.isPrefixOf, String.length,
    jsParseFloat, digitsToNat]

theorem rpn_ex4 :
    parse "-3+5" =
      Except.ok [Token.number (JNum.num (-1)),
      Token.number (JNum.num (3)),
      Token.op "×",
      Token.number (JNum.num (5)),
      Token.op "+"] := by
  rw [parse, tok_ex4]
  decide

theorem tok_ex5 :
    tokenize "5*-2" =
      [Token.number (JNum.num (5)),
      Token.op "*",
      Token.number (JNum.num (-1)),
      Token.op "×",
      Token.number (JNum.num (2))] := by
  show tokenizeLoop ['5','*','-','2'] [] = _
  simp [tokenizeLoop, findName, funcNames, FUNCTIONS, constNames, CONSTANTS,
    isNumChar, isDigitChar, isLetterChar, unaryCtx, Token.isOp, Token.isLParen,
    lookupOp, OPERATORS, List.find?, List.isPrefixOf, String.length,
    jsParseFloat, digitsToNat]

theorem rpn_ex5 :
    parse "5*-2" =
      Except.ok [Token.number (JNum.num (5)),
      Token.number (JNum.num (-1)),
      Token.op "*",
      Token.number (JNum.num (2)),
      Token.op "×"] := by
  rw [parse, tok_ex5]
  decide

theorem tok_ex6 :
    tokenize "sqrt(-1)" =
      [Token.func "sqrt",
      Token.lparen,
      Token.number (JNum.num (-1)),
      Token.op "×",
      Token.number (JNum.num (1)),
      Token.rparen] := by
  show tokenizeLoop ['s','q','r','t','(','-','1',')'] [] = _
  simp [tokenizeLoop, findName, funcNames, FUNCTIONS, constNames, CONSTANTS,
    isNumChar, isDigitChar, isLetterChar, unaryCtx, Token.isOp, Token.isLParen,
    lookupOp, OPERATORS, List.find?, List.isPrefixOf, String.length,
    jsParseFloat, digitsToNat]

theorem rpn_ex6 :
    parse "sqrt(-1)" =
      Except.ok [Token.number (JNum.num (-1)),
      Token.number (JNum.num (1)),
      Token.op "×",
      Token.func "sqrt"] := by
  rw [parse, tok_ex6]
  decide

theorem tok_ex7 :
    tokenize "10/0" =
      [Token.number (JNum.num (10)),
      Token.op "/",
      Token.number (JNum.num (0))] := by
  show tokenizeLoop ['1','0','/','0'] [] = _
  simp [tokenizeLoop, findName, funcNames, FUNCTIONS, constNames, CONSTANTS,
    isNumChar, isDigitChar, isLetterChar, unaryCtx, Token.isOp, Token.isLParen,
    lookupOp, OPERATORS, List.find?, List.isPrefixOf, String.length,
    jsParseFloat, digitsToNat]

theorem rpn_ex7 :
    parse "10/0" =
      Except.ok [Token.number (JNum.num (10)),
      Token.number (JNum.num (0)),
      Token.op "/"] := by
  rw [parse, tok_ex7]
  decide

theorem tok_ex8 :
    tokenize "log(0)" =
      [Token.func "log",
      Token.lparen,
      Token.number (JNum.num (0)),
      Token.rparen] := by
  show tokenizeLoop ['l','o','g','(','0',')'] [] = _
  simp [tokenizeLoop, findName, funcNames, FUNCTIONS, constNames, CONSTANTS,
    isNumChar, isDigitChar, isLetterChar, unaryCtx, Token.isOp, Token.isLParen,
    lookupOp, OPERATORS, List.find?, List.isPrefixOf, String.length,
    jsParseFloat, digitsToNat]

theorem rpn_ex8 :
    parse "log(0)" =
      Except.ok [Token.number (JNum.num (0)),
      Token.func "log"] := by
  rw [parse, tok_ex8]
  decide

theorem tok_ex9 :
    tokenize "sin" =
      [Token.func "sin"] := by
  show tokenizeLoop ['s','i','n'] [] = _
  simp [tokenizeLoop, findName, funcNames, FUNCTIONS, constNames, CONSTANTS,
    isNumChar, isDigitChar, isLetterChar, unaryCtx, Token.isOp, Token.isLParen,
    lookupOp, OPERATORS, List.find?, List.isPrefixOf, String.length,
    jsParseFloat, digitsToNat]

theorem tok_ex10 :
    tokenize "sinh" =
      [Token.func "sin",
      Token.var "h"] := by
  show tokenizeLoop ['s','i','n','h'] [] = _
  simp [tokenizeLoop, findName, funcNames, FUNCTIONS, constNames, CONSTANTS,
    isNumChar, isDigitChar, isLetterChar, unaryCtx, Token.isOp, Token.isLParen,
    lookupOp, OPERATORS, List.find?, List.isPrefixOf, String.length,
    jsParseFloat, digitsToNat]

theorem eval_ex1 (M : NativeMath) (ctx : CalcState) :
    evaluateExpression M "2+3*4" ctx = Except.ok (JNum.num 14) := by
  have h1 : JNum.jmul (JNum.num 3) (JNum.num 4) = JNum.num 12 := by norm_num [JNum.jmul]
  have h2 : JNum.jadd (JNum.num 2) (JNum.num 12) = JNum.num 14 := by norm_num [JNum.jadd]
  simp only [evaluateExpression, rpn_ex1, evaluate, evalRun, evalStep,
    lookupFn, FUNCTIONS, List.find?, Except.map, List.take, List.drop, List.reverse,
    List.reverseAux, List.length, h1, h2,
    evalOp_add, evalOp_mul, evalOp_mulU, evalOp_pow, evalOp_div, evalOp_sqrt,
    evalOp_log]

theorem eval_ex2 (M : NativeMath) (ctx : CalcState) :
    evaluateExpression M "(2+3)*4" ctx = Except.ok (JNum.num 20) := by
  have h1 : JNum.jadd (JNum.num 2) (JNum.num 3) = JNum.num 5 := by norm_num [JNum.jadd]
  have h2 : JNum.jmul (JNum.num 5) (JNum.num 4) = JNum.num 20 := by norm_num [JNum.jmul]
  simp only [evaluateExpression, rpn_ex2, evaluate, evalRun, evalStep,
    lookupFn, FUNCTIONS, List.find?, Except.map, List.take, List.drop, List.reverse,
    List.reverseAux, List.length, h1, h2,
    evalOp_add, evalOp_mul, evalOp_mulU, evalOp_pow, evalOp_div, evalOp_sqrt,
    evalOp_log]

theorem eval_ex3 (M : NativeMath) (ctx : CalcState) :
    evaluateExpression M "2^3^2" ctx = Except.ok (JNum.num 512) := by
  have h1 : JNum.jpow M.powFrac (JNum.num 3) (JNum.num 2) = JNum.num 9 := by simp [JNum.jpow]; norm_num
  have h2 : JNum.jpow M.powFrac (JNum.num 2) (JNum.num 9) = JNum.num 512 := by simp [JNum.jpow]; norm_num
  simp only [evaluateExpression, rpn_ex3, evaluate, evalRun, evalStep,
    lookupFn, FUNCTIONS, List.find?, Except.map, List.take, List.drop, List.reverse,
    List.reverseAux, List.length, h1, h2,
    evalOp_add, evalOp_mul, evalOp_mulU, evalOp_pow, evalOp_div, evalOp_sqrt,
    evalOp_log]

theorem eval_ex4 (M : NativeMath) (ctx : CalcState) :
    evaluateExpression M "-3+5" ctx = Except.ok (JNum.num 2) := by
  have h1 : JNum.jmul (JNum.num (-1)) (JNum.num 3) = JNum.num (-3) := by norm_num [JNum.jmul]
  have h2 : JNum.jadd (JNum.num (-3)) (JNum.num 5) = JNum.num 2 := by norm_num [JNum.jadd]
  simp only [evaluateExpression, rpn_ex4, evaluate, evalRun, evalStep,
    lookupFn, FUNCTIONS, List.find?, Except.map, List.take, List.drop, List.reverse,
    List.reverseAux, List.length, h1, h2,
    evalOp_add, evalOp_mul, evalOp_mulU, evalOp_pow, evalOp_div, evalOp_sqrt,
    evalOp_log]

theorem eval_ex5 (M : NativeMath) (ctx : CalcState) :
    evaluateExpression M "5*-2" ctx = Except.ok (JNum.num (-10)) := by
  have h1 : JNum.jmul (JNum.num 5) (JNum.num (-1)) = JNum.num (-5) := by norm_num [JNum.jmul]
  have h2 : JNum.jmul (JNum.num (-5)) (JNum.num 2) = JNum.num (-10) := by norm_num [JNum.jmul]
  simp only [evaluateExpression, rpn_ex5, evaluate, evalRun, evalStep,
    lookupFn, FUNCTIONS, List.find?, Except.map, List.take, List.drop, List.reverse,
    List.reverseAux, List.length, h1, h2,
    evalOp_add, evalOp_mul, evalOp_mulU, evalOp_pow, evalOp_div, evalOp_sqrt,
    evalOp_log]

theorem eval_ex6 (M : NativeMath) (ctx : CalcState) :
    evaluateExpression M "sqrt(-1)" ctx = Except.error "Invalid domain for sqrt" := by
  have h1 : JNum.jmul (JNum.num (-1)) (JNum.num 1) = JNum.num (-1) := by norm_num [JNum.jmul]
  have h2 : JNum.jlt (JNum.num (-1)) (JNum.num 0) = true := by norm_num [JNum.jlt]
  have hfn : lookupFn "sqrt" = some 1 := by decide
  simp only [evaluateExpression, rpn_ex6, evaluate, evalRun, evalStep,
    hfn, Except.map, List.take, List.drop, List.reverse,
    List.reverseAux, List.length, h1, h2,
    evalOp_add, evalOp_mul, evalOp_mulU, evalOp_pow, evalOp_div, evalOp_sqrt,
    evalOp_log]
  simp

theorem eval_ex7 (M : NativeMath) (ctx : CalcState) :
    evaluateExpression M "10/0" ctx = Except.error "Division by zero" := by
  have h1 : JNum.jeq (JNum.num 0) (JNum.num 0) = true := by simp [JNum.jeq]
  simp only [evaluateExpression, rpn_ex7, evaluate, evalRun, evalStep,
    lookupFn, FUNCTIONS, List.find?, Except.map, List.take, List.drop, List.reverse,
    List.reverseAux, List.length, h1,
    evalOp_add, evalOp_mul, evalOp_mulU, evalOp_pow, evalOp_div, evalOp_sqrt,
    evalOp_log]
  simp

theorem eval_ex8 (M : NativeMath) (ctx : CalcState) :
    evaluateExpression M "log(0)" ctx = Except.error "Invalid domain for log" := by
  have h1 : JNum.jle (JNum.num 0) (JNum.num 0) = true := by simp [JNum.jle, JNum.jeq]
  have hfn : lookupFn "log" = some 1 := by decide
  simp only [evaluateExpression, rpn_ex8, evaluate, evalRun, evalStep,
    hfn, Except.map, List.take, List.drop, List.reverse,
    List.reverseAux, List.length, h1,
    evalOp_add, evalOp_mul, evalOp_mulU, evalOp_pow, evalOp_div, evalOp_sqrt,
    evalOp_log]
  simp

/-- C1: for every operator token op1 read by parseToRPN, the operator case
pops exactly those stack-top operators op2 with (op1 left-associative and
prec(op1) ≤ prec(op2)) or (op1 right-associative and prec(op1) <
prec(op2)) to the output, then pushes op1; consequently the full pipeline
gives evaluate("2+3*4") = 14, evaluate("(2+3)*4") = 20, and (since ^ is
right-associative) evaluate("2^3^2") = 512. -/
theorem claim1_shunting_yard_operator_case :
    (∀ (out stack : List Token) (s : String) (o1 : OpInfo),
        lookupOp s = some o1 → opsKnown stack = true →
        syStep (out, stack) (Token.op s) =
          Except.ok (out ++ stack.takeWhile (shouldPopT o1),
            Token.op s :: stack.dropWhile (shouldPopT o1))) ∧
    (∀ (M : NativeMath) (ctx : CalcState),
        evaluateExpression M "2+3*4" ctx = Except.ok (JNum.num 14) ∧
        evaluateExpression M "(2+3)*4" ctx = Except.ok (JNum.num 20) ∧
        evaluateExpression M "2^3^2" ctx = Except.ok (JNum.num 512)) :=
  ⟨fun out stack s o1 ho1 hwf => syStep_operator out stack s o1 ho1 hwf,
   fun M ctx => ⟨eval_ex1 M ctx, eval_ex2 M ctx, eval_ex3 M ctx⟩⟩

theorem claim1_shunting_yard_operator_case_witness :
    syStep ([], [Token.op "*"]) (Token.op "+") =
      Except.ok ([] ++ List.takeWhile (shouldPopT ⟨1, Assoc.left, 2⟩) [Token.op "*"],
        Token.op "+" :: List.dropWhile (shouldPopT ⟨1, Assoc.left, 2⟩) [Token.op "*"]) ∧
    evaluateExpression NativeMath.arb "2+3*4" ⟨AngleUnit.DEG, fun _ => none⟩ =
      Except.ok (JNum.num 14) :=
  ⟨claim1_shunting_yard_operator_case.1 [] [Token.op "*"] "+" ⟨1, Assoc.left, 2⟩
      (by decide) (by decide),
   (claim1_shunting_yard_operator_case.2 NativeMath.arb ⟨AngleUnit.DEG, fun _ => none⟩).1⟩

/-- C2: the evaluation closures built by solve and by integrate
(createFunctionFromExpression) write the trial value into the uppercased
variable, call the evaluator, and return with the caller's state fully
restored on both the success and the failure path; consequently a whole
solve or expression-based integrate call leaves the caller's variable
bindings untouched, in particular when it raises an error mid-evaluation. -/
theorem claim2_binding_isolation :
    (∀ (M : NativeMath) (e v : String) (val : JNum) (st : CalcState),
        (solveF M e v val st).2 = st ∧
        (solveF M e v val st).1 =
          evaluateWithState M e
            { st with memory := updateMem st.memory v.toUpper (some val) }) ∧
    (∀ (M : NativeMath) (e v : String) (val : JNum) (st : CalcState),
        (createFunctionFromExpression M e v val st).2 = st ∧
        (createFunctionFromExpression M e v val st).1 =
          evaluateWithState M e
            { st with memory := updateMem st.memory v.toUpper (some val) }) ∧
    (∀ (M : NativeMath) (e v : String) (g : JNum) (o : SolveOpts) (st : CalcState),
        (solve M e v g o st).2.memory = st.memory) ∧
    (∀ (M : NativeMath) (s : String) (a b : JNum) (o : IntOpts) (st : CalcState),
        (integrate M (Integrand.expr s) a b o st).2.memory = st.memory) :=
  ⟨fun M e v val st => ⟨solveF_state M e v val st, solveF_result M e v val st⟩,
   fun M e v val st => ⟨createFn_state M e v val st, createFn_result M e v val st⟩,
   fun M e v g o st => congrArg CalcState.memory (solve_state M e v g o st),
   fun M s a b o st => congrArg CalcState.memory (integrate_state M s a b o st)⟩

/-- C3: a minus sign read at the start of the input (no token emitted
yet), right after an operator token, or right after a left parenthesis is
tokenized as the two tokens Number(-1), Operator(×) instead of a binary
subtraction; consequently evaluate("-3+5") = 2 and evaluate("5*-2") = -10. -/
theorem claim3_unary_minus :
    (∀ (rest : List Char) (acc : List Token), unaryCtx acc = true →
        tokenizeLoop ('-' :: rest) acc =
          tokenizeLoop rest (Token.op "×" :: Token.number (JNum.num (-1)) :: acc) ∧
        tokenizeLoop ('−' :: rest) acc =
          tokenizeLoop rest (Token.op "×" :: Token.number (JNum.num (-1)) :: acc)) ∧
    (∀ (M : NativeMath) (ctx : CalcState),
        evaluateExpression M "-3+5" ctx = Except.ok (JNum.num 2) ∧
        evaluateExpression M "5*-2" ctx = Except.ok (JNum.num (-10))) :=
  ⟨fun rest acc h => ⟨tokenizeLoop_unary_minus rest acc h, tokenizeLoop_unary_minusU rest acc h⟩,
   fun M ctx => ⟨eval_ex4 M ctx, eval_ex5 M ctx⟩⟩

theorem claim3_unary_minus_witness :
    (tokenizeLoop ['-', '3'] [] =
      tokenizeLoop ['3'] [Token.op "×", Token.number (JNum.num (-1))]) ∧
    evaluateExpression NativeMath.arb "-3+5" ⟨AngleUnit.DEG, fun _ => none⟩ =
      Except.ok (JNum.num 2) :=
  ⟨(claim3_unary_minus.1 ['3'] [] (by decide)).1,
   (claim3_unary_minus.2 NativeMath.arb ⟨AngleUnit.DEG, fun _ => none⟩).1⟩

/-- C4: log and ln fail with the domain error for any argument ≤ 0, sqrt
fails with the domain error for any negative argument, and division fails
with the division-by-zero error exactly when the divisor is 0; in
particular evaluate("sqrt(-1)"), evaluate("10/0") and evaluate("log(0)")
fail with the respective errors. -/
theorem claim4_domain_errors :
    (∀ (M : NativeMath) (u : AngleUnit) (x : JNum) (args : List JNum),
        JNum.jle x (JNum.num 0) = true →
        evaluateOperation M "log" (x :: args) u = Except.error "Invalid domain for log" ∧
        evaluateOperation M "ln" (x :: args) u = Except.error "Invalid domain for ln") ∧
    (∀ (M : NativeMath) (u : AngleUnit) (x : JNum) (args : List JNum),
        JNum.jlt x (JNum.num 0) = true →
        evaluateOperation M "sqrt" (x :: args) u = Except.error "Invalid domain for sqrt" ∧
        evaluateOperation M "√" (x :: args) u = Except.error "Invalid domain for sqrt") ∧
    (∀ (M : NativeMath) (u : AngleUnit) (x y : JNum),
        (evaluateOperation M "/" [x, y] u = Except.error "Division by zero" ↔
          y = JNum.num 0) ∧
        (evaluateOperation M "÷" [x, y] u = Except.error "Division by zero" ↔
          y = JNum.num 0)) ∧
    (∀ (M : NativeMath) (ctx : CalcState),
        evaluateExpression M "sqrt(-1)" ctx = Except.error "Invalid domain for sqrt" ∧
        evaluateExpression M "10/0" ctx = Except.error "Division by zero" ∧
        evaluateExpression M "log(0)" ctx = Except.error "Invalid domain for log") := by
  refine ⟨?_, ?_, ?_, ?_⟩
  · intro M u x args h
    rw [evalOp_log, evalOp_ln, if_pos h, if_pos h]
    exact ⟨rfl, rfl⟩
  · intro M u x args h
    rw [evalOp_sqrt, evalOp_sqrtU, if_pos h]
    exact ⟨rfl, rfl⟩
  · intro M u x y
    constructor
    · rw [evalOp_div]
      constructor
      · intro h
        by_cases hy : JNum.jeq y (JNum.num 0) = true
        · exact (jeq_num_zero_iff y).mp hy
        · rw [if_neg hy] at h
          exact absurd h (by simp)
      · intro h
        subst h
        rw [if_pos (by simp [JNum.jeq])]
    · rw [evalOp_divU]
      constructor
      · intro h
        by_cases hy : JNum.jeq y (JNum.num 0) = true
        · exact (jeq_num_zero_iff y).mp hy
        · rw [if_neg hy] at h
          exact absurd h (by simp)
      · intro h
        subst h
        rw [if_pos (by simp [JNum.jeq])]
  · intro M ctx
    exact ⟨eval_ex6 M ctx, eval_ex7 M ctx, eval_ex8 M ctx⟩

theorem claim4_domain_errors_witness :
    evaluateOperation NativeMath.arb "log" [JNum.num 0] AngleUnit.DEG =
      Except.error "Invalid domain for log" ∧
    evaluateOperation NativeMath.arb "sqrt" [JNum.num (-1)] AngleUnit.DEG =
      Except.error "Invalid domain for sqrt" ∧
    (evaluateOperation NativeMath.arb "/" [JNum.num 10, JNum.num 0] AngleUnit.DEG =
      Except.error "Division by zero" ↔ JNum.num 0 = JNum.num 0) :=
  ⟨(claim4_domain_errors.1 NativeMath.arb AngleUnit.DEG (JNum.num 0) [] (by decide)).1,
   (claim4_domain_errors.2.1 NativeMath.arb AngleUnit.DEG (JNum.num (-1)) [] (by decide)).1,
   (claim4_domain_errors.2.2.1 NativeMath.arb AngleUnit.DEG (JNum.num 10) (JNum.num 0)).1⟩

/-- C5 (counterexample): the claim says the tokenizer longest-matches the
function table, so "sinh" would become the single token sinh; in fact the
scan takes the first match in table order, "sin" precedes "sinh", and
"sinh" tokenizes as the function sin followed by the variable h. -/
theorem claim5_counterexample :
    tokenize "sinh" = [Token.func "sin", Token.var "h"] ∧
    tokenize "sinh" ≠ [Token.func "sinh"] := by
  constructor
  · exact tok_ex10
  · rw [tok_ex10]
    decide

/-- C5 (amended): at every position, the tokenizer tries the function
table before the single-letter variable fallback, and when one or more
names match it emits one FUNCTION token carrying the first matching name
in table insertion order (not the longest); so "sin" is one function
token and "sinh" is the function sin followed by the variable h. -/
theorem claim5_first_match :
    (∀ (cs : List Char) (acc : List Token) (nm : String),
        findName funcNames cs = some nm →
        tokenizeLoop cs acc = tokenizeLoop (cs.drop nm.length) (Token.func nm :: acc)) ∧
    tokenize "sin" = [Token.func "sin"] ∧
    tokenize "sinh" = [Token.func "sin", Token.var "h"] :=
  ⟨fun cs acc nm h => tokenizeLoop_func_found cs acc nm h, tok_ex9, tok_ex10⟩

theorem claim5_first_match_witness :
    tokenizeLoop ['s', 'i', 'n', 'h'] [] =
      tokenizeLoop (List.drop ("sin".length) ['s', 'i', 'n', 'h']) [Token.func "sin"] :=
  claim5_first_match.1 ['s', 'i', 'n', 'h'] [] "sin" (by decide)

/-- C6 (counterexample): the claim says the fourth root returns a real
value for every real argument; in fact Math.pow with a negative base and
the non-integral exponent 1/4 is NaN, so the fourth root of -1 evaluates
to NaN, which is not a (finite) real value. -/
theorem claim6_counterexample :
    evaluateOperation NativeMath.arb "∜" [JNum.num (-1)] AngleUnit.DEG =
      Except.ok JNum.nan ∧
    JNum.nan.isFinite = false := by
  constructor
  · rw [evalOp_fourth, jpow_quarter_neg _ (-1) (by norm_num)]
  · rfl

/-- C6 (amended): the cube root dispatches to the native cbrt (defined for
all reals) and the fourth root to pow(x, 1/4); neither performs a domain
check or ever raises an error, but pow with a negative base and the
non-integral exponent 1/4 yields NaN, so the fourth root of a negative
number is NaN rather than a real value. -/
theorem claim6_roots_no_domain_check :
    (∀ (M : NativeMath) (u : AngleUnit) (x : JNum) (args : List JNum),
        evaluateOperation M "∛" (x :: args) u = Except.ok (M.cbrt x)) ∧
    (∀ (M : NativeMath) (u : AngleUnit) (x : JNum) (args : List JNum),
        evaluateOperation M "∜" (x :: args) u =
          Except.ok (JNum.jpow M.powFrac x (JNum.num (1 / 4)))) ∧
    (∀ (pf : ℚ → ℚ → JNum) (q : ℚ), q < 0 →
        JNum.jpow pf (JNum.num q) (JNum.num (1 / 4)) = JNum.nan) :=
  ⟨fun M u x args => evalOp_cbrt M u x args,
   fun M u x args => evalOp_fourth M u x args,
   fun pf q h => jpow_quarter_neg pf q h⟩

theorem claim6_roots_no_domain_check_witness :
    JNum.jpow NativeMath.arb.powFrac (JNum.num (-1)) (JNum.num (1 / 4)) = JNum.nan :=
  claim6_roots_no_domain_check.2.2 NativeMath.arb.powFrac (-1) (by decide)

/-- C7: the factorial operation rejects every operand that is not a
non-negative integer with the domain error; for integers n > 170 it
saturates to Infinity; for 0 ≤ n ≤ 170 the iteratively computed product
equals n!. -/
theorem claim7_factorial :
    (∀ (M : NativeMath) (u : AngleUnit) (x : JNum) (args : List JNum),
        x.isInteger = false ∨ JNum.jlt x (JNum.num 0) = true →
        evaluateOperation M "!" (x :: args) u =
          Except.error "Factorial requires non-negative integer") ∧
    (∀ (M : NativeMath) (u : AngleUnit) (n : ℕ) (args : List JNum), 170 < n →
        evaluateOperation M "!" (JNum.num (n : ℚ) :: args) u = Except.ok JNum.inf) ∧
    (∀ (M : NativeMath) (u : AngleUnit) (n : ℕ) (args : List JNum), n ≤ 170 →
        evaluateOperation M "!" (JNum.num (n : ℚ) :: args) u =
          Except.ok (JNum.num (Nat.factorial n : ℚ))) := by
  have hguard : ∀ (n : ℕ),
      (!(JNum.num (n : ℚ)).isInteger || JNum.jlt (JNum.num (n : ℚ)) (JNum.num 0)) = false := by
    intro n
    have h1 : (JNum.num (n : ℚ)).isInteger = true := by
      simp [JNum.isInteger, Rat.den_natCast]
    have h2 : JNum.jlt (JNum.num (n : ℚ)) (JNum.num 0) = false := by
      simp [JNum.jlt]
    simp [h1, h2]
  refine ⟨?_, ?_, ?_⟩
  · intro M u x args h
    rw [evalOp_fact]
    rcases h with h | h
    · rw [if_pos (by simp [h])]
    · rw [if_pos (by simp [h])]
  · intro M u n args h
    rw [evalOp_fact, if_neg (by simp [hguard n]), jsFactorial_saturates n h]
  · intro M u n args h
    rw [evalOp_fact, if_neg (by simp [hguard n]), jsFactorial_small n h]

theorem claim7_factorial_witness :
    evaluateOperation NativeMath.arb "!" [JNum.inf] AngleUnit.DEG =
      Except.error "Factorial requires non-negative integer" ∧
    evaluateOperation NativeMath.arb "!" [JNum.num ((171 : ℕ) : ℚ)] AngleUnit.DEG =
      Except.ok JNum.inf ∧
    evaluateOperation NativeMath.arb "!" [JNum.num ((5 : ℕ) : ℚ)] AngleUnit.DEG =
      Except.ok (JNum.num (Nat.factorial 5 : ℚ)) :=
  ⟨claim7_factorial.1 NativeMath.arb AngleUnit.DEG JNum.inf [] (Or.inl rfl),
   claim7_factorial.2.1 NativeMath.arb AngleUnit.DEG 171 [] (by decide),
   claim7_factorial.2.2 NativeMath.arb AngleUnit.DEG 5 [] (by decide)⟩

/-- C8: parseToRPN fails with SyntaxError("Mismatched parentheses")
whenever the parenthesis nesting of the token sequence is unbalanced in
either direction: a right parenthesis that empties the operator stack
raises it during the scan, and a leftover parenthesis on the stack raises
it in the final pop-all phase.  (`opsKnown` scopes the statement to token
streams whose operator symbols are in the OPERATORS table, as all
tokenizer outputs are.) -/
theorem claim8_mismatched_parens (ts : List Token) (hwf : opsKnown ts = true)
    (hbal : parenDepthOk ts 0 = false) :
    parseToRPN ts = Except.error "Mismatched parentheses" := by
  have h := syRun_unbalanced ts [] [] hwf rfl (by simpa [countLP] using hbal)
  rcases h with h | ⟨st', hrun, hcnt⟩
  · unfold parseToRPN
    simp [h]
  · unfold parseToRPN
    simp [hrun, popAll_error_of_lp st'.2 hcnt]

theorem claim8_mismatched_parens_witness :
    parseToRPN [Token.rparen] = Except.error "Mismatched parentheses" ∧
    parseToRPN [Token.lparen] = Except.error "Mismatched parentheses" :=
  ⟨claim8_mismatched_parens [Token.rparen] (by decide) (by decide),
   claim8_mismatched_parens [Token.lparen] (by decide) (by decide)⟩

/-- C9: integrate returns exactly 0 when the (finite) bounds are equal,
and when a > b it returns the negation of integrate with the bounds
swapped, with the same final state. -/
theorem claim9_integrate_bounds (M : NativeMath) (func : Integrand) (o : IntOpts)
    (st : CalcState) (a b : JNum) (ha : a.isFinite = true) (hb : b.isFinite = true) :
    (JNum.jeq a b = true → integrate M func a b o st = (Except.ok (JNum.num 0), st)) ∧
    (JNum.jlt b a = true →
      integrate M func a b o st =
        ((integrate M func b a o st).1.map JNum.jneg, (integrate M func b a o st).2)) :=
  ⟨fun heq => integrate_eq_zero M func a b o st ha hb heq,
   fun hba => integrate_swap M func a b o st ha hb hba⟩

theorem claim9_integrate_bounds_witness :
    (JNum.jeq (JNum.num 2) (JNum.num 1) = true →
      integrate NativeMath.arb (Integrand.fn (fun _ s => (Except.ok (JNum.num 0), s)))
          (JNum.num 2) (JNum.num 1) ⟨JNum.num 1, 0, "x"⟩ ⟨AngleUnit.DEG, fun _ => none⟩ =
        (Except.ok (JNum.num 0), ⟨AngleUnit.DEG, fun _ => none⟩)) ∧
    (JNum.jlt (JNum.num 1) (JNum.num 2) = true →
      integrate NativeMath.arb (Integrand.fn (fun _ s => (Except.ok (JNum.num 0), s)))
          (JNum.num 2) (JNum.num 1) ⟨JNum.num 1, 0, "x"⟩ ⟨AngleUnit.DEG, fun _ => none⟩ =
        ((integrate NativeMath.arb (Integrand.fn (fun _ s => (Except.ok (JNum.num 0), s)))
            (JNum.num 1) (JNum.num 2) ⟨JNum.num 1, 0, "x"⟩
            ⟨AngleUnit.DEG, fun _ => none⟩).1.map JNum.jneg,
          (integrate NativeMath.arb (Integrand.fn (fun _ s => (Except.ok (JNum.num 0), s)))
            (JNum.num 1) (JNum.num 2) ⟨JNum.num 1, 0, "x"⟩
            ⟨AngleUnit.DEG, fun _ => none⟩).2)) :=
  claim9_integrate_bounds NativeMath.arb (Integrand.fn (fun _ s => (Except.ok (JNum.num 0), s)))
    ⟨JNum.num 1, 0, "x"⟩ ⟨AngleUnit.DEG, fun _ => none⟩ (JNum.num 2) (JNum.num 1)
    (by decide) (by decide)

/-- C10: the character ! is in none of the operator, function or constant
tables, so the tokenizer drops it as an unknown character and evaluating a
numeric literal followed by "!" returns the literal itself without error
(the factorial branch of evaluateOperation is unreachable from the string
pipeline). -/
theorem claim10_bang_is_dropped :
    lookupOp "!" = none ∧
    ("!" ∈ funcNames → False) ∧
    ("!" ∈ constNames → False) ∧
    (∀ (M : NativeMath) (ctx : CalcState) (s : String), s.data ≠ [] →
      (∀ c ∈ s.data, isDigitChar c = true) →
      evaluateExpression M (s ++ "!") ctx =
        Except.ok (JNum.num ((digitsToNat s.data : ℚ))) ∧
      evaluateExpression M (s ++ "!") ctx = evaluateExpression M s ctx) := by
  refine ⟨by decide, by decide, by decide, ?_⟩
  intro M ctx s hne hd
  have h1 := tokenize_digits_bang s hne hd
  have h2 := tokenize_digits s hne hd
  constructor
  · simp only [evaluateExpression, parse, h1, parseToRPN_single_number,
      evaluate_single_number]
  · simp only [evaluateExpression, parse, h1, h2, parseToRPN_single_number,
      evaluate_single_number]

theorem claim10_bang_is_dropped_witness :
    evaluateExpression NativeMath.arb ("12" ++ "!") ⟨AngleUnit.DEG, fun _ => none⟩ =
      Except.ok (JNum.num ((digitsToNat "12".data : ℚ))) ∧
    evaluateExpression NativeMath.arb ("12" ++ "!") ⟨AngleUnit.DEG, fun _ => none⟩ =
      evaluateExpression NativeMath.arb "12" ⟨AngleUnit.DEG, fun _ => none⟩ :=
  claim10_bang_is_dropped.2.2.2 NativeMath.arb ⟨AngleUnit.DEG, fun _ => none⟩ "12"
    (by decide) (by decide)
